import Mathlib

/-!
# GLSL.std.450 extended instructions of the SPIR-V shader debugger

A shallow embedding of `renderdoc/driver/shaders/spirv/spirv_debug_glsl450.cpp`
and a verification development over it.

Numeric model.  A component of a `ShaderVariable` is one 32-bit lane that the
C++ union exposes under three views: `fv` (binary32), `uv` (unsigned) and `iv`
(two's-complement signed).  The lane is a `Word`; the float view is evaluated
with IEEE-754 binary32 semantics, round-to-nearest ties-to-even, every C++
operator rounded on its own (no contraction into fused multiply-add, no excess
precision).  Every NaN an arithmetic operation produces is the canonical quiet
NaN; no statement below depends on the payload of a produced NaN.
-/

set_option maxRecDepth 8192
set_option exponentiation.threshold 4096

namespace rdcspv

/-! ## 32-bit lanes -/

/-- One 32-bit lane of the value union, as its unsigned bit pattern. -/
abbrev Word := Fin 4294967296

/-- The lane holding the low 32 bits of a natural number. -/
def Word.ofNat (n : Nat) : Word := ⟨n % 4294967296, Nat.mod_lt n (by decide)⟩

/-- The `int32_t` reading of a lane (two's complement). -/
def Word.toInt32 (w : Word) : Int :=
  if w.val < 2147483648 then (w.val : Int) else (w.val : Int) - 4294967296

/-- The lane that stores an `int32_t` value. -/
def Word.ofInt32 (i : Int) : Word := Word.ofNat (i % 4294967296).toNat

/-! ## IEEE-754 binary32 -/

/-- A C++ `float`: an IEEE-754 binary32 datum, identified with its bit pattern. -/
structure Float32 where
  bits : Word
deriving DecidableEq

namespace Float32

/-- Sign bit (bit 31). -/
def sign (x : Float32) : Bool := decide (2147483648 ≤ x.bits.val)

/-- Biased exponent field (bits 30..23). -/
def expo (x : Float32) : Nat := x.bits.val / 8388608 % 256

/-- Fraction field (bits 22..0). -/
def frac (x : Float32) : Nat := x.bits.val % 8388608

/-- NaN: exponent field all ones and a non-zero fraction. -/
def isNaN (x : Float32) : Bool := x.expo == 255 && x.frac != 0

/-- Infinity: exponent field all ones and a zero fraction. -/
def isInf (x : Float32) : Bool := x.expo == 255 && x.frac == 0

/-- Finite: neither NaN nor infinite. -/
def isFinite (x : Float32) : Bool := decide (x.expo < 255)

/-- Magnitude in units of `2^-149` (the smallest subnormal).  For an infinity the
same formula gives `2^277`, which lies above every finite magnitude, so that the
order of the extended reals is the order of `toInt`. -/
def mag (x : Float32) : Nat :=
  if x.expo = 0 then x.frac else (8388608 + x.frac) * 2 ^ (x.expo - 1)

/-- Signed value in units of `2^-149`; meaningful when `x` is not a NaN. -/
def toInt (x : Float32) : Int :=
  if x.sign then -(x.mag : Int) else (x.mag : Int)

/-- The C++ `x < y` on `float`: false as soon as one side is a NaN. -/
def lt (x y : Float32) : Bool := !x.isNaN && !y.isNaN && decide (x.toInt < y.toInt)

/-- The C++ `x <= y` on `float`. -/
def le (x y : Float32) : Bool := !x.isNaN && !y.isNaN && decide (x.toInt ≤ y.toInt)

/-- The C++ `x == y` on `float`: `+0 == -0`, and a NaN equals nothing. -/
def feq (x y : Float32) : Bool := !x.isNaN && !y.isNaN && decide (x.toInt = y.toInt)

instance : LT Float32 := ⟨fun x y => x.lt y = true⟩

instance : DecidableRel (α := Float32) (· < ·) := fun x y =>
  inferInstanceAs (Decidable (x.lt y = true))

/-- Build a datum from a natural bit pattern (low 32 bits). -/
def ofBits (n : Nat) : Float32 := ⟨Word.ofNat n⟩

/-- The literal `0.0f`. -/
def zero : Float32 := ofBits 0

/-- The literal `1.0f`. -/
def one : Float32 := ofBits 1065353216

/-- The canonical quiet NaN `0x7FC00000`. -/
def qNaN : Float32 := ofBits 2143289344

/-- The bit pattern of a sign. -/
def signBit (s : Bool) : Nat := if s then 2147483648 else 0

/-- Signed zero. -/
def signedZero (s : Bool) : Float32 := ofBits (signBit s)

/-- Signed infinity. -/
def signedInf (s : Bool) : Float32 := ofBits (signBit s + 2139095040)

/-- Unary minus: flips the sign bit, also of a NaN. -/
def neg (x : Float32) : Float32 := ofBits (x.bits.val + 2147483648)

/-- The exponent search of rounding: starting from `t`, the least `t` such that
`num / den < 2^(t + 24)`, giving up after `fuel` steps. -/
def expSearch (num den : Nat) : Nat → Nat → Nat
  | 0, t => t
  | fuel + 1, t => if num < den * 2 ^ (t + 24) then t else expSearch num den fuel (t + 1)

/-- Round the non-negative rational `num / den` (in units of `2^-149`) to the
nearest binary32 magnitude, ties to even: the exponent and fraction fields of
the result.  With the unit `2^t` of the binade found by `expSearch`, `r` is the
rounded significand; `t * 2^23 + r` is then the exponent and fraction fields at
once (a significand that rounds up to `2^24` carries into the exponent), and
everything at or above `255 * 2^23` overflows to infinity. -/
def roundMag (num den : Nat) : Nat :=
  let t := expSearch num den 254 0
  let d := den * 2 ^ t
  let q := num / d
  let rem := num % d
  let r := if d < 2 * rem ∨ (2 * rem = d ∧ q % 2 = 1) then q + 1 else q
  let m := t * 8388608 + r
  if 2139095040 ≤ m then 2139095040 else m

/-- The binary32 datum of sign `s` nearest to `num / den` units of `2^-149`. -/
def roundRat (s : Bool) (num den : Nat) : Float32 :=
  ofBits (signBit s + roundMag num den)

/-- The C++ `x + y` on `float`. -/
def add (x y : Float32) : Float32 :=
  if x.isNaN || y.isNaN then qNaN
  else if x.isInf then (if y.isInf && (x.sign != y.sign) then qNaN else x)
  else if y.isInf then y
  else
    let v := x.toInt + y.toInt
    if v = 0 then signedZero (x.sign && y.sign)
    else roundRat (decide (v < 0)) v.natAbs 1

/-- The C++ `x - y` on `float`. -/
def sub (x y : Float32) : Float32 := add x (neg y)

/-- The C++ `x * y` on `float`. -/
def mul (x y : Float32) : Float32 :=
  if x.isNaN || y.isNaN then qNaN
  else if x.isInf || y.isInf then
    (if x.mag = 0 ∨ y.mag = 0 then qNaN else signedInf (x.sign != y.sign))
  else roundRat (x.sign != y.sign) (x.mag * y.mag) (2 ^ 149)

/-- The C++ `x / y` on `float`. -/
def div (x y : Float32) : Float32 :=
  if x.isNaN || y.isNaN then qNaN
  else if x.isInf then (if y.isInf then qNaN else signedInf (x.sign != y.sign))
  else if y.isInf then signedZero (x.sign != y.sign)
  else if y.mag = 0 then (if x.mag = 0 then qNaN else signedInf (x.sign != y.sign))
  else roundRat (x.sign != y.sign) (x.mag * 2 ^ 149) y.mag

/-- Bitwise integer square root: the largest `r` below `2^i` steps with `r * r ≤ n`. -/
def isqrtAux (n : Nat) : Nat → Nat → Nat
  | 0, r => r
  | i + 1, r =>
    if (r + 2 ^ i) * (r + 2 ^ i) ≤ n then isqrtAux n i (r + 2 ^ i) else isqrtAux n i r

/-- The exponent search of the square root: starting from `t`, the least `t`
with `n < 4^(t + 24)`, that is `sqrt n < 2^(t + 24)`. -/
def sqrtExpSearch (n : Nat) : Nat → Nat → Nat
  | 0, t => t
  | fuel + 1, t => if n < 4 ^ (t + 24) then t else sqrtExpSearch n fuel (t + 1)

/-- The libm `sqrtf`, correctly rounded as IEEE-754 requires.  For a positive
finite `x` with magnitude `m`, the root in units of `2^-149` is `sqrt (m * 2^149)`;
its significand is `floor (sqrt n / 2^t) = isqrt (n / 4^t)`, rounded up when the
root lies above the midpoint `(2 q + 1) * 2^t / 2`. -/
def sqrt (x : Float32) : Float32 :=
  if x.isNaN then qNaN
  else if x.mag = 0 then x
  else if x.sign then qNaN
  else if x.isInf then x
  else
    let n := x.mag * 2 ^ 149
    let t := sqrtExpSearch n 254 0
    let q := isqrtAux (n / 4 ^ t) 24 0
    let mid := (2 * q + 1) * (2 * q + 1) * 4 ^ t
    let r := if mid < 4 * n ∨ (mid = 4 * n ∧ q % 2 = 1) then q + 1 else q
    ofBits (t * 8388608 + r)

/-- The libm `fabsf`: clears the sign bit. -/
def abs (x : Float32) : Float32 := ofBits (x.bits.val % 2147483648)

/-- The libm `floorf`: the largest integral value not above `x`; NaN and the
infinities pass through, and a zero result keeps the sign of `x`. -/
def floor (x : Float32) : Float32 :=
  if x.isNaN then qNaN
  else if x.isInf then x
  else
    let fl := x.toInt / ((2 ^ 149 : Nat) : Int)
    if fl = 0 then signedZero x.sign
    else roundRat (decide (fl < 0)) (fl.natAbs * 2 ^ 149) 1

end Float32

/-! ## Value model -/

/-- Modelled from the spec: the numeric domain tag of a value; the declaration of
`VarType` is outside this file.  `Unknown` is the tag of a default-constructed
variable. -/
inductive VarType where
  | Float
  | SInt
  | UInt
  | Unknown
deriving DecidableEq, Repr

/-- Modelled from the spec: the `ShaderVariable` aggregate, whose declaration is
outside this file.  `value` is the storage of the union `value.fv / value.iv /
value.uv`, one 32-bit lane per component index; `columns` counts the components
that are semantically valid. -/
structure ShaderVariable where
  name : String
  type : VarType
  rows : Nat
  columns : Nat
  value : Nat → Word

namespace ShaderVariable

/-- Modelled from the spec: the default-constructed `ShaderVariable()`, the
sentinel: no name, no columns, every lane zero. -/
def default : ShaderVariable :=
  { name := "", type := VarType.Unknown, rows := 0, columns := 0, value := fun _ => 0 }

/-- Read `value.fv[c]`. -/
def fv (v : ShaderVariable) (c : Nat) : Float32 := ⟨v.value c⟩

/-- Read `value.uv[c]`. -/
def uv (v : ShaderVariable) (c : Nat) : Word := v.value c

/-- Read `value.iv[c]`. -/
def iv (v : ShaderVariable) (c : Nat) : Int := (v.value c).toInt32

/-- Assign `value.fv[c] = f`. -/
def setFv (v : ShaderVariable) (c : Nat) (f : Float32) : ShaderVariable :=
  { v with value := Function.update v.value c f.bits }

/-- Assign `value.uv[c] = u`. -/
def setUv (v : ShaderVariable) (c : Nat) (u : Word) : ShaderVariable :=
  { v with value := Function.update v.value c u }

/-- Assign `value.iv[c] = i`. -/
def setIv (v : ShaderVariable) (c : Nat) (i : Int) : ShaderVariable :=
  { v with value := Function.update v.value c (Word.ofInt32 i) }

end ShaderVariable

/-- An operand reference: the identifier of a register/SSA value. -/
abbrev Id := Nat

/-- Modelled from the spec: the interpreter state of one lane, of which this file
uses only the side-effect-free read accessor `GetSrc`. -/
structure ThreadState where
  GetSrc : Id → ShaderVariable

/-- One `RDCERR` message of `CHECK_PARAMS`: the enclosing function, the expected
operand count `n` and the actual `params.size()`. -/
structure Diagnostic where
  func : String
  expected : Nat
  actual : Nat
deriving DecidableEq, Repr

/-- What one call of an instruction function does: the `ShaderVariable` it
returns, the `RDCERR` messages it emits, the ids it passes to `GetSrc` (in call
order), and the `RDCASSERT`s that failed (with the two values the assertion
prints).  `RDCASSERT` is a macro declared outside this file; a failed assertion
is recorded here and execution goes on after it. -/
structure Outcome where
  result : ShaderVariable
  log : List Diagnostic
  reads : List Id
  asserts : List (Nat × Nat)

/-- The failure branch of `CHECK_PARAMS(n)` inside the function `func`. -/
def checkParamsFail (func : String) (params : List Id) (n : Nat) : Outcome :=
  { result := ShaderVariable.default,
    log := [{ func := func, expected := n, actual := params.length }],
    reads := [],
    asserts := [] }

/-- The loop `for(uint32_t c = 0; c < n; c++) var = body c var`. -/
def forColumns (n : Nat) (body : Nat → ShaderVariable → ShaderVariable)
    (var : ShaderVariable) : ShaderVariable :=
  (List.range n).foldl (fun v c => body c v) var

namespace glsl

/-- The template `GLSLMax`: `x < y ? y : x`. -/
def GLSLMax {T : Type} [LT T] [DecidableRel (α := T) (· < ·)] (x y : T) : T :=
  if x < y then y else x

/-- The template `GLSLMin`: `y < x ? y : x`. -/
def GLSLMin {T : Type} [LT T] [DecidableRel (α := T) (· < ·)] (x y : T) : T :=
  if y < x then y else x

/-- Instruction `FAbs`. -/
def FAbs (state : ThreadState) (params : List Id) : Outcome :=
  if params.length ≠ 1 then checkParamsFail "FAbs" params 1
  else
    let var := state.GetSrc (params.getD 0 0)
    let var := forColumns var.columns (fun c var => var.setFv c (Float32.abs (var.fv c))) var
    { result := var, log := [], reads := [params.getD 0 0], asserts := [] }

/-- Instruction `Floor`. -/
def Floor (state : ThreadState) (params : List Id) : Outcome :=
  if params.length ≠ 1 then checkParamsFail "Floor" params 1
  else
    let var := state.GetSrc (params.getD 0 0)
    let var := forColumns var.columns (fun c var => var.setFv c (Float32.floor (var.fv c))) var
    { result := var, log := [], reads := [params.getD 0 0], asserts := [] }

/-- Instruction `Pow`.  The libm `powf` is taken as a parameter. -/
def Pow (powf : Float32 → Float32 → Float32) (state : ThreadState) (params : List Id) :
    Outcome :=
  if params.length ≠ 2 then checkParamsFail "Pow" params 2
  else
    let var := state.GetSrc (params.getD 0 0)
    let y := state.GetSrc (params.getD 1 0)
    let var := forColumns var.columns (fun c var => var.setFv c (powf (var.fv c) (y.fv c))) var
    { result := var, log := [], reads := [params.getD 0 0, params.getD 1 0], asserts := [] }

/-- Instruction `FMax`. -/
def FMax (state : ThreadState) (params : List Id) : Outcome :=
  if params.length ≠ 2 then checkParamsFail "FMax" params 2
  else
    let var := state.GetSrc (params.getD 0 0)
    let y := state.GetSrc (params.getD 1 0)
    let var := forColumns var.columns (fun c var => var.setFv c (GLSLMax (var.fv c) (y.fv c))) var
    { result := var, log := [], reads := [params.getD 0 0, params.getD 1 0], asserts := [] }

/-- Instruction `UMax`. -/
def UMax (state : ThreadState) (params : List Id) : Outcome :=
  if params.length ≠ 2 then checkParamsFail "UMax" params 2
  else
    let var := state.GetSrc (params.getD 0 0)
    let y := state.GetSrc (params.getD 1 0)
    let var := forColumns var.columns (fun c var => var.setUv c (GLSLMax (var.uv c) (y.uv c))) var
    { result := var, log := [], reads := [params.getD 0 0, params.getD 1 0], asserts := [] }

/-- Instruction `SMax`. -/
def SMax (state : ThreadState) (params : List Id) : Outcome :=
  if params.length ≠ 2 then checkParamsFail "SMax" params 2
  else
    let var := state.GetSrc (params.getD 0 0)
    let y := state.GetSrc (params.getD 1 0)
    let var := forColumns var.columns (fun c var => var.setIv c (GLSLMax (var.iv c) (y.iv c))) var
    { result := var, log := [], reads := [params.getD 0 0, params.getD 1 0], asserts := [] }

/-- Instruction `FMin`. -/
def FMin (state : ThreadState) (params : List Id) : Outcome :=
  if params.length ≠ 2 then checkParamsFail "FMin" params 2
  else
    let var := state.GetSrc (params.getD 0 0)
    let y := state.GetSrc (params.getD 1 0)
    let var := forColumns var.columns (fun c var => var.setFv c (GLSLMin (var.fv c) (y.fv c))) var
    { result := var, log := [], reads := [params.getD 0 0, params.getD 1 0], asserts := [] }

/-- Instruction `UMin`. -/
def UMin (state : ThreadState) (params : List Id) : Outcome :=
  if params.length ≠ 2 then checkParamsFail "UMin" params 2
  else
    let var := state.GetSrc (params.getD 0 0)
    let y := state.GetSrc (params.getD 1 0)
    let var := forColumns var.columns (fun c var => var.setUv c (GLSLMin (var.uv c) (y.uv c))) var
    { result := var, log := [], reads := [params.getD 0 0, params.getD 1 0], asserts := [] }

/-- Instruction `SMin`. -/
def SMin (state : ThreadState) (params : List Id) : Outcome :=
  if params.length ≠ 2 then checkParamsFail "SMin" params 2
  else
    let var := state.GetSrc (params.getD 0 0)
    let y := state.GetSrc (params.getD 1 0)
    let var := forColumns var.columns (fun c var => var.setIv c (GLSLMin (var.iv c) (y.iv c))) var
    { result := var, log := [], reads := [params.getD 0 0, params.getD 1 0], asserts := [] }

/-- Instruction `FClamp`. -/
def FClamp (state : ThreadState) (params : List Id) : Outcome :=
  if params.length ≠ 3 then checkParamsFail "FClamp" params 3
  else
    let var := state.GetSrc (params.getD 0 0)
    let minVal := state.GetSrc (params.getD 1 0)
    let maxVal := state.GetSrc (params.getD 2 0)
    let var := forColumns var.columns
      (fun c var => var.setFv c (GLSLMin (GLSLMax (var.fv c) (minVal.fv c)) (maxVal.fv c))) var
    { result := var, log := [],
      reads := [params.getD 0 0, params.getD 1 0, params.getD 2 0], asserts := [] }

/-- Instruction `UClamp`. -/
def UClamp (state : ThreadState) (params : List Id) : Outcome :=
  if params.length ≠ 3 then checkParamsFail "UClamp" params 3
  else
    let var := state.GetSrc (params.getD 0 0)
    let minVal := state.GetSrc (params.getD 1 0)
    let maxVal := state.GetSrc (params.getD 2 0)
    let var := forColumns var.columns
      (fun c var => var.setUv c (GLSLMin (GLSLMax (var.uv c) (minVal.uv c)) (maxVal.uv c))) var
    { result := var, log := [],
      reads := [params.getD 0 0, params.getD 1 0, params.getD 2 0], asserts := [] }

/-- Instruction `SClamp`. -/
def SClamp (state : ThreadState) (params : List Id) : Outcome :=
  if params.length ≠ 3 then checkParamsFail "SClamp" params 3
  else
    let var := state.GetSrc (params.getD 0 0)
    let minVal := state.GetSrc (params.getD 1 0)
    let maxVal := state.GetSrc (params.getD 2 0)
    let var := forColumns var.columns
      (fun c var => var.setIv c (GLSLMin (GLSLMax (var.iv c) (minVal.iv c)) (maxVal.iv c))) var
    { result := var, log := [],
      reads := [params.getD 0 0, params.getD 1 0, params.getD 2 0], asserts := [] }

/-- Instruction `FMix`; the integer literal `1` of `(1 - af)` converts to `1.0f`. -/
def FMix (state : ThreadState) (params : List Id) : Outcome :=
  if params.length ≠ 3 then checkParamsFail "FMix" params 3
  else
    let var := state.GetSrc (params.getD 0 0)
    let y := state.GetSrc (params.getD 1 0)
    let a := state.GetSrc (params.getD 2 0)
    let var := forColumns var.columns
      (fun c var =>
        let xf := var.fv c
        let yf := y.fv c
        let af := a.fv c
        var.setFv c (Float32.add (Float32.mul xf (Float32.sub Float32.one af)) (Float32.mul yf af)))
      var
    { result := var, log := [],
      reads := [params.getD 0 0, params.getD 1 0, params.getD 2 0], asserts := [] }

/-- Instruction `Normalize`. -/
def Normalize (state : ThreadState) (params : List Id) : Outcome :=
  if params.length ≠ 1 then checkParamsFail "Normalize" params 1
  else
    let var := state.GetSrc (params.getD 0 0)
    let sqrlength := (List.range var.columns).foldl
      (fun sqrlength c => Float32.add sqrlength (Float32.mul (var.fv c) (var.fv c))) Float32.zero
    let invlength := Float32.div Float32.one (Float32.sqrt sqrlength)
    let var := forColumns var.columns
      (fun c var => var.setFv c (Float32.mul (var.fv c) invlength)) var
    { result := var, log := [], reads := [params.getD 0 0], asserts := [] }

/-- Instruction `Cross`. -/
def Cross (state : ThreadState) (params : List Id) : Outcome :=
  if params.length ≠ 2 then checkParamsFail "Cross" params 2
  else
    let x := state.GetSrc (params.getD 0 0)
    let y := state.GetSrc (params.getD 1 0)
    let asserts := if x.columns = 3 ∧ y.columns = 3 then [] else [(x.columns, y.columns)]
    let var := x
    let var := var.setFv 0
      (Float32.sub (Float32.mul (x.fv 1) (y.fv 2)) (Float32.mul (y.fv 1) (x.fv 2)))
    let var := var.setFv 1
      (Float32.sub (Float32.mul (x.fv 2) (y.fv 0)) (Float32.mul (y.fv 2) (x.fv 0)))
    let var := var.setFv 2
      (Float32.sub (Float32.mul (x.fv 0) (y.fv 1)) (Float32.mul (y.fv 0) (x.fv 1)))
    { result := var, log := [], reads := [params.getD 0 0, params.getD 1 0],
      asserts := asserts }

end glsl

/-! ## Dispatch table -/

/-- The address of one of the fifteen instruction functions, as stored in
`ExtInstDispatcher::functions`. -/
inductive ExtInstImpl where
  | FAbs | Floor | Pow | FMin | UMin | SMin | FMax | UMax | SMax
  | FClamp | UClamp | SClamp | FMix | Cross | Normalize
deriving DecidableEq, Repr

/-- Calling through a stored function pointer. -/
def ExtInstImpl.call (powf : Float32 → Float32 → Float32) :
    ExtInstImpl → ThreadState → List Id → Outcome
  | .FAbs => glsl.FAbs
  | .Floor => glsl.Floor
  | .Pow => glsl.Pow powf
  | .FMin => glsl.FMin
  | .UMin => glsl.UMin
  | .SMin => glsl.SMin
  | .FMax => glsl.FMax
  | .UMax => glsl.UMax
  | .SMax => glsl.SMax
  | .FClamp => glsl.FClamp
  | .UClamp => glsl.UClamp
  | .SClamp => glsl.SClamp
  | .FMix => glsl.FMix
  | .Cross => glsl.Cross
  | .Normalize => glsl.Normalize

/-- The name of each instruction function and the operand count the
specification declares for it. -/
def ExtInstImpl.arity : ExtInstImpl → String × Nat
  | .FAbs => ("FAbs", 1)
  | .Floor => ("Floor", 1)
  | .Pow => ("Pow", 2)
  | .FMin => ("FMin", 2)
  | .UMin => ("UMin", 2)
  | .SMin => ("SMin", 2)
  | .FMax => ("FMax", 2)
  | .UMax => ("UMax", 2)
  | .SMax => ("SMax", 2)
  | .FClamp => ("FClamp", 3)
  | .UClamp => ("UClamp", 3)
  | .SClamp => ("SClamp", 3)
  | .FMix => ("FMix", 3)
  | .Cross => ("Cross", 2)
  | .Normalize => ("Normalize", 1)

/-- The part of the `GLSLstd450` enumeration this file uses; the enumeration is
declared outside this file, so it is a parameter: `Max` is its member count and
`value f` the ordinal of the member named like the instruction function `f`. -/
structure GLSLstd450 where
  Max : Nat
  value : ExtInstImpl → Nat

/-- The dispatcher: two parallel arrays indexed by opcode; a slot of `functions`
that holds `none` is a null function pointer. -/
structure ExtInstDispatcher where
  names : List String
  functions : List (Option ExtInstImpl)

/-- The array operation `resize(n)`: truncate, or pad with value-initialised
elements. -/
def resize {α : Type} (xs : List α) (n : Nat) (dflt : α) : List α :=
  xs.take n ++ List.replicate (n - xs.length) dflt

/-- The statement `EXT(func)`, assigning `functions[GLSLstd450::func] = &glsl::func`. -/
def EXT (e : GLSLstd450) (func : ExtInstImpl) (extinst : ExtInstDispatcher) :
    ExtInstDispatcher :=
  { extinst with functions := extinst.functions.set (e.value func) (some func) }

/-- The registration function `ConfigureGLSLStd450`; `ToStr` is the display-string
function of the enumeration, declared outside this file. -/
def ConfigureGLSLStd450 (e : GLSLstd450) (ToStr : Nat → String)
    (extinst : ExtInstDispatcher) : ExtInstDispatcher :=
  let names := resize extinst.names e.Max ""
  let names := (List.range names.length).foldl (fun names i => names.set i (ToStr i)) names
  let extinst : ExtInstDispatcher :=
    { names := names, functions := resize extinst.functions names.length none }
  let extinst := EXT e .FAbs extinst
  let extinst := EXT e .Floor extinst
  let extinst := EXT e .Pow extinst
  let extinst := EXT e .FMin extinst
  let extinst := EXT e .UMin extinst
  let extinst := EXT e .SMin extinst
  let extinst := EXT e .FMax extinst
  let extinst := EXT e .UMax extinst
  let extinst := EXT e .SMax extinst
  let extinst := EXT e .FClamp extinst
  let extinst := EXT e .UClamp extinst
  let extinst := EXT e .SClamp extinst
  let extinst := EXT e .FMix extinst
  let extinst := EXT e .Cross extinst
  let extinst := EXT e .Normalize extinst
  extinst

/-! ## Concrete inputs -/

/-- A variable with the given type tag, column count and lane bit patterns
(missing lanes are zero). -/
def mkVar (type : VarType) (columns : Nat) (lanes : List Nat) : ShaderVariable :=
  { name := "v", type := type, rows := 1, columns := columns,
    value := fun i => Word.ofNat (lanes.getD i 0) }

/-- A lane state binding the id `i` to the `i`-th variable of the list. -/
def mkState (vars : List ShaderVariable) : ThreadState :=
  { GetSrc := fun id => vars.getD id ShaderVariable.default }

/-- Two unsigned 2-vectors: `(0xFFFFFFFE, 1)` and `(0x00000001, 5)`. -/
def stateUMax : ThreadState :=
  mkState [mkVar .UInt 2 [0xFFFFFFFE, 1], mkVar .UInt 2 [0x00000001, 5]]

/-- Two float scalars: a quiet NaN `0x7FC00000` and `1.0f`. -/
def stateNaN : ThreadState :=
  mkState [mkVar .Float 1 [0x7FC00000], mkVar .Float 1 [0x3F800000]]

/-- A freshly constructed dispatcher: both arrays empty. -/
def ExtInstDispatcher.fresh : ExtInstDispatcher := { names := [], functions := [] }

/-- The ordinals the Khronos GLSL.std.450 instruction set gives the fifteen
members, with the member count 82 (the last member has ordinal 81). -/
def khronosGLSLstd450 : GLSLstd450 :=
  { Max := 82,
    value := fun f =>
      match f with
      | .FAbs => 4
      | .Floor => 8
      | .Pow => 26
      | .FMin => 37
      | .UMin => 38
      | .SMin => 39
      | .FMax => 40
      | .UMax => 41
      | .SMax => 42
      | .FClamp => 43
      | .UClamp => 44
      | .SClamp => 45
      | .FMix => 46
      | .Cross => 68
      | .Normalize => 69 }

/-- A display-string function for the witness: the decimal ordinal. -/
def ordinalString (i : Nat) : String := toString i

/-- Two float 3-vectors `(1, 2, 3)` and `(4, 5, 6)`. -/
def stateCross : ThreadState :=
  mkState [mkVar .Float 3 [0x3F800000, 0x40000000, 0x40400000],
    mkVar .Float 3 [0x40800000, 0x40A00000, 0x40C00000]]

/-- The same finite float 3-vector twice: `(0, 2^100, 2^100)`. -/
def stateCrossBig : ThreadState :=
  mkState [mkVar .Float 3 [0, 0x71800000, 0x71800000],
    mkVar .Float 3 [0, 0x71800000, 0x71800000]]

/-- One float 2-vector `(3, 4)`. -/
def stateNormalize : ThreadState :=
  mkState [mkVar .Float 2 [0x40400000, 0x40800000]]

/-- Three unsigned 2-vectors: `x = (7, 0xFFFFFFF0)`, `minVal = (10, 3)`,
`maxVal = (20, 0x80000000)`. -/
def stateClamp : ThreadState :=
  mkState [mkVar .UInt 2 [7, 0xFFFFFFF0], mkVar .UInt 2 [10, 3],
    mkVar .UInt 2 [20, 0x80000000]]

/-- Three signed scalars: `x = -16`, `minVal = -5`, `maxVal = 3`. -/
def stateSClamp : ThreadState :=
  mkState [mkVar .SInt 1 [0xFFFFFFF0], mkVar .SInt 1 [0xFFFFFFFB], mkVar .SInt 1 [3]]

/-- Three float scalars: `x = 5.0f`, `lo = 1.0f`, `hi = 2.0f`. -/
def stateFClamp : ThreadState :=
  mkState [mkVar .Float 1 [0x40A00000], mkVar .Float 1 [0x3F800000],
    mkVar .Float 1 [0x40000000]]

/-- Three float 2-vectors: `x = (2, 2)`, `y = (3, 3)`, `a = (0, 1)`. -/
def stateMix : ThreadState :=
  mkState [mkVar .Float 2 [0x40000000, 0x40000000], mkVar .Float 2 [0x40400000, 0x40400000],
    mkVar .Float 2 [0, 0x3F800000]]

/-- Three float 2-vectors: `x = (1, +inf)`, `y = (+inf, 1)`, `a = (0, 1)`. -/
def stateMixInf : ThreadState :=
  mkState [mkVar .Float 2 [0x3F800000, 0x7F800000], mkVar .Float 2 [0x7F800000, 0x3F800000],
    mkVar .Float 2 [0, 0x3F800000]]

/-- Two float scalars: `+0.0f` and `-0.0f`. -/
def stateZeros : ThreadState :=
  mkState [mkVar .Float 1 [0], mkVar .Float 1 [0x80000000]]

/-- Two float scalars: `-2.5f` and `1.0f`. -/
def stateNegative : ThreadState :=
  mkState [mkVar .Float 1 [0xC0200000], mkVar .Float 1 [0x3F800000]]

/-- The lane state of a second clamp: id 0 is bound to the result of clamping
`stateClamp`, ids 1 and 2 to the same bounds. -/
def stateClampAgain : ThreadState :=
  { GetSrc := fun id =>
      if id = 0 then (glsl.UClamp stateClamp [0, 1, 2]).result else stateClamp.GetSrc id }

/-- Three unsigned scalars with inverted bounds: `x = 7`, `minVal = 20`,
`maxVal = 10`. -/
def stateClampInverted : ThreadState :=
  mkState [mkVar .UInt 1 [7], mkVar .UInt 1 [20], mkVar .UInt 1 [10]]

/-- The number of leading lanes an instruction assigns: the three lanes of
`Cross`, the columns of the first operand `x` for every other instruction. -/
def computedLanes (f : ExtInstImpl) (x : ShaderVariable) : Nat :=
  match f with
  | .Cross => 3
  | _ => x.columns

/-- The variable `v2` is `v` with components at indices at or beyond `v.columns`
possibly changed: same metadata, same column count, same lanes below it. -/
def sameBelowColumns (v v2 : ShaderVariable) : Prop :=
  v2.name = v.name ∧ v2.type = v.type ∧ v2.rows = v.rows ∧ v2.columns = v.columns ∧
    ∀ i, i < v.columns → v2.value i = v.value i

/-- The state `stateUMax` with a third variable bound to id 2. -/
def stateUMaxMore : ThreadState :=
  mkState [mkVar .UInt 2 [0xFFFFFFFE, 1], mkVar .UInt 2 [0x00000001, 5], mkVar .UInt 4 [9, 9, 9, 9]]

/-- A float 2-vector `x = (1, 1)` and a float scalar `y = 2` whose unused lane 1
holds `0`. -/
def stateShort : ThreadState :=
  mkState [mkVar .Float 2 [0x3F800000, 0x3F800000], mkVar .Float 1 [0x40000000, 0]]

/-- The same operands, the unused lane 1 of the scalar `y` now holding `5.0f`. -/
def stateShort2 : ThreadState :=
  mkState [mkVar .Float 2 [0x3F800000, 0x3F800000], mkVar .Float 1 [0x40000000, 0x40A00000]]

/-- The state `stateCross` with the unused lane 3 of both vectors changed. -/
def stateCross2 : ThreadState :=
  mkState [mkVar .Float 3 [0x3F800000, 0x40000000, 0x40400000, 0x7FC00000],
    mkVar .Float 3 [0x40800000, 0x40A00000, 0x40C00000, 0x3F800000]]

/-- One finite float 2-vector `(2^100, 1)`. -/
def stateOverflow : ThreadState :=
  mkState [mkVar .Float 2 [0x71800000, 0x3F800000]]

/-- One float 2-vector `(-3, 0)`. -/
def stateSigned : ThreadState :=
  mkState [mkVar .Float 2 [0xC0400000, 0]]

/-- The squared length `Normalize` accumulates: the sum of the squares of the
first `columns` components, in index order from `0.0f`. -/
def sqrLength (x : ShaderVariable) : Float32 :=
  (List.range x.columns).foldl
    (fun sqrlength i => Float32.add sqrlength (Float32.mul (x.fv i) (x.fv i)))
    Float32.zero

/-- The common factor of `Normalize`: `1.0f / sqrtf(sqrlength)`. -/
def invLength (x : ShaderVariable) : Float32 :=
  Float32.div Float32.one (Float32.sqrt (sqrLength x))

/-! ## Loops and lanes -/

/-- Rewrite the first `n` lanes of `var` with `g`, each from its own old content. -/
def mapLanes (n : Nat) (g : Nat → Word → Word) (var : ShaderVariable) : ShaderVariable :=
  { var with value := fun i => if i < n then g i (var.value i) else var.value i }

theorem forColumns_succ (n : Nat) (body : Nat → ShaderVariable → ShaderVariable)
    (var : ShaderVariable) :
    forColumns (n + 1) body var = body n (forColumns n body var) := by
  simp [forColumns, List.range_succ, List.foldl_append]

/-- A loop whose body stores into lane `c` a function of the old lane `c` rewrites
exactly the first `n` lanes, each from the original content of that lane. -/
theorem forColumns_lanes (g : Nat → Word → Word) (n : Nat) (var : ShaderVariable) :
    forColumns n
      (fun c v => { v with value := Function.update v.value c (g c (v.value c)) }) var
      = mapLanes n g var := by
  induction n with
  | zero => simp [forColumns, mapLanes]
  | succ k ih =>
    rw [forColumns_succ, ih]
    simp only [mapLanes]
    congr 1
    funext i
    by_cases hik : i = k
    · subst hik
      simp
    · rw [Function.update_noteq hik]
      have : (i < k + 1) = (i < k) := by
        apply propext
        omega
      simp only [this]

theorem int32_roundtrip (w : Word) : Word.ofInt32 w.toInt32 = w := by
  apply Fin.ext
  have hw := w.isLt
  simp only [Word.ofInt32, Word.ofNat, Word.toInt32]
  split <;> omega

theorem toInt32_lt_iff (a b : Word) :
    a.toInt32 < b.toInt32 ↔
      (a.val + 2147483648) % 4294967296 < (b.val + 2147483648) % 4294967296 := by
  have ha := a.isLt
  have hb := b.isLt
  simp only [Word.toInt32]
  split <;> split <;> omega

/-! ## Closed forms of the component-wise instructions -/

namespace glsl

theorem FMax_result (state : ThreadState) (p q : Id) :
    (FMax state [p, q]).result
      = mapLanes (state.GetSrc p).columns
          (fun c w => (GLSLMax (Float32.mk w) ((state.GetSrc q).fv c)).bits)
          (state.GetSrc p) := by
  simp only [FMax, List.length_cons, List.length_nil, ne_eq, not_true_eq_false, if_false,
    List.getD_cons_zero, List.getD_cons_succ]
  exact forColumns_lanes
    (fun c w => (GLSLMax (Float32.mk w) ((state.GetSrc q).fv c)).bits) _ _

theorem FMin_result (state : ThreadState) (p q : Id) :
    (FMin state [p, q]).result
      = mapLanes (state.GetSrc p).columns
          (fun c w => (GLSLMin (Float32.mk w) ((state.GetSrc q).fv c)).bits)
          (state.GetSrc p) := by
  simp only [FMin, List.length_cons, List.length_nil, ne_eq, not_true_eq_false, if_false,
    List.getD_cons_zero, List.getD_cons_succ]
  exact forColumns_lanes
    (fun c w => (GLSLMin (Float32.mk w) ((state.GetSrc q).fv c)).bits) _ _

theorem UMax_result (state : ThreadState) (p q : Id) :
    (UMax state [p, q]).result
      = mapLanes (state.GetSrc p).columns
          (fun c w => GLSLMax w ((state.GetSrc q).uv c))
          (state.GetSrc p) := by
  simp only [UMax, List.length_cons, List.length_nil, ne_eq, not_true_eq_false, if_false,
    List.getD_cons_zero, List.getD_cons_succ]
  exact forColumns_lanes (fun c w => GLSLMax w ((state.GetSrc q).uv c)) _ _

end glsl

/-! ## Arrays -/

theorem length_resize {α : Type} (xs : List α) (n : Nat) (dflt : α) :
    (resize xs n dflt).length = n := by
  simp only [resize, List.length_append, List.length_take, List.length_replicate]
  omega

/-- The loop `for(i < n) names[i] = g i` keeps the length and overwrites exactly
the slots below `n`. -/
theorem fill_names (g : Nat → String) (n : Nat) (names : List String) :
    ((List.range n).foldl (fun names i => names.set i (g i)) names).length = names.length ∧
    ∀ i, ((List.range n).foldl (fun names i => names.set i (g i)) names)[i]?
      = if i < n ∧ i < names.length then some (g i) else names[i]? := by
  induction n with
  | zero => simp
  | succ k ih =>
    obtain ⟨hlen, hget⟩ := ih
    rw [List.range_succ, List.foldl_append]
    simp only [List.foldl_cons, List.foldl_nil, List.length_set]
    refine ⟨hlen, ?_⟩
    intro i
    rw [List.getElem?_set, hlen, hget]
    by_cases hik : k = i
    · subst hik
      by_cases hk : k < names.length
      · simp [hk]
      · have : names[k]? = none := List.getElem?_eq_none (by omega)
        simp [hk, this]
    · have h1 : (i < k + 1 ∧ i < names.length) = (i < k ∧ i < names.length) := by
        apply propext
        constructor <;> intro h <;> refine ⟨by omega, h.2⟩
      simp only [hik, if_false, h1]

/-- The fifteen `EXT` statements, in source order. -/
theorem functions_eq_foldl (e : GLSLstd450) (ToStr : Nat → String) (d : ExtInstDispatcher) :
    (ConfigureGLSLStd450 e ToStr d).functions =
      ([.FAbs, .Floor, .Pow, .FMin, .UMin, .SMin, .FMax, .UMax, .SMax, .FClamp, .UClamp,
        .SClamp, .FMix, .Cross, .Normalize] : List ExtInstImpl).foldl
        (fun fs f => fs.set (e.value f) (some f))
        (resize d.functions
          ((List.range (resize d.names e.Max "").length).foldl
            (fun names i => names.set i (ToStr i)) (resize d.names e.Max "")).length none) := by
  simp only [ConfigureGLSLStd450, EXT, List.foldl_cons, List.foldl_nil]

theorem assign_length (e : GLSLstd450) (fs : List ExtInstImpl)
    (xs : List (Option ExtInstImpl)) :
    (fs.foldl (fun xs f => xs.set (e.value f) (some f)) xs).length = xs.length := by
  induction fs generalizing xs with
  | nil => rfl
  | cons g rest ih => simp [List.foldl_cons, ih]

/-- A slot no assignment of the sequence targets keeps its content. -/
theorem assign_untouched (e : GLSLstd450) (i : Nat) (fs : List ExtInstImpl)
    (xs : List (Option ExtInstImpl)) (hno : ∀ f ∈ fs, e.value f ≠ i) :
    (fs.foldl (fun xs f => xs.set (e.value f) (some f)) xs)[i]? = xs[i]? := by
  induction fs generalizing xs with
  | nil => rfl
  | cons g rest ih =>
    rw [List.foldl_cons, ih _ (fun f hf => hno f (List.mem_cons_of_mem g hf))]
    exact List.getElem?_set_ne (hno g (List.mem_cons_self g rest))

/-- With pairwise distinct ordinals, the slot of a member of the sequence holds
that member at the end: no later assignment overwrites it. -/
theorem assign_member (e : GLSLstd450) (hinj : Function.Injective e.value) (f : ExtInstImpl)
    (fs : List ExtInstImpl) (xs : List (Option ExtInstImpl)) (hf : f ∈ fs)
    (hlt : e.value f < xs.length) :
    (fs.foldl (fun xs f => xs.set (e.value f) (some f)) xs)[e.value f]? = some (some f) := by
  induction fs generalizing xs with
  | nil => exact absurd hf (List.not_mem_nil f)
  | cons g rest ih =>
    rw [List.foldl_cons]
    by_cases hrest : f ∈ rest
    · exact ih _ hrest (by rw [List.length_set]; exact hlt)
    · have hfg : f = g := by
        rcases List.mem_cons.mp hf with h | h
        · exact h
        · exact absurd h hrest
      subst hfg
      rw [assign_untouched e (e.value f) rest _
        (fun g hg hv => hrest (by rw [← hinj hv]; exact hg))]
      exact List.getElem?_set_self hlt

/-! ## Binary32: fields, negation, rounding -/

namespace Float32

theorem bits_ofBits (n : Nat) (h : n < 4294967296) : (ofBits n).bits.val = n := by
  simp only [ofBits, Word.ofNat]
  omega

theorem bits_ofBits_mod (n : Nat) : (ofBits n).bits.val = n % 4294967296 := rfl

theorem ext_bits {x y : Float32} (h : x.bits.val = y.bits.val) : x = y := by
  cases x
  cases y
  simp only [Float32.mk.injEq]
  exact Fin.ext h

theorem sign_neg (x : Float32) : (neg x).sign = !x.sign := by
  have hx := x.bits.isLt
  simp only [sign, neg, bits_ofBits_mod]
  by_cases h : 2147483648 ≤ x.bits.val
  · simp only [h, decide_True, Bool.not_true, decide_eq_false_iff_not]
    omega
  · simp only [h, decide_False, Bool.not_false, decide_eq_true_eq]
    omega

theorem expo_neg (x : Float32) : (neg x).expo = x.expo := by
  have hx := x.bits.isLt
  simp only [expo, neg, bits_ofBits_mod]
  omega

theorem frac_neg (x : Float32) : (neg x).frac = x.frac := by
  have hx := x.bits.isLt
  simp only [frac, neg, bits_ofBits_mod]
  omega

theorem isNaN_neg (x : Float32) : (neg x).isNaN = x.isNaN := by
  simp only [isNaN, expo_neg, frac_neg]

theorem isInf_neg (x : Float32) : (neg x).isInf = x.isInf := by
  simp only [isInf, expo_neg, frac_neg]

theorem mag_neg (x : Float32) : (neg x).mag = x.mag := by
  simp only [mag, expo_neg, frac_neg]

theorem toInt_neg (x : Float32) : (neg x).toInt = -x.toInt := by
  simp only [toInt, sign_neg, mag_neg]
  cases x.sign <;> simp

theorem neg_neg (x : Float32) : neg (neg x) = x := by
  apply ext_bits
  have hx := x.bits.isLt
  simp only [neg, bits_ofBits_mod]
  omega

theorem roundMag_le (num den : Nat) : roundMag num den ≤ 2139095040 := by
  simp only [roundMag]
  split_ifs <;> omega

theorem signBit_le (s : Bool) : signBit s ≤ 2147483648 := by
  cases s <;> simp [signBit]

theorem bits_roundRat (s : Bool) (num den : Nat) :
    (roundRat s num den).bits.val = signBit s + roundMag num den := by
  have h1 := roundMag_le num den
  have h2 := signBit_le s
  exact bits_ofBits _ (by omega)

theorem isNaN_roundRat (s : Bool) (num den : Nat) : (roundRat s num den).isNaN = false := by
  have h1 := roundMag_le num den
  have hb := bits_roundRat s num den
  simp only [isNaN, expo, frac, hb]
  cases s <;> simp only [signBit, if_true, if_false, Bool.false_eq_true] <;>
    by_cases h : roundMag num den = 2139095040 <;> simp [h] <;> omega

theorem neg_roundRat (s : Bool) (num den : Nat) :
    neg (roundRat s num den) = roundRat (!s) num den := by
  apply ext_bits
  have h1 := roundMag_le num den
  simp only [neg, bits_ofBits_mod, bits_roundRat]
  cases s <;> simp only [signBit, Bool.not_true, Bool.not_false, if_true, if_false,
    Bool.false_eq_true] <;> omega

theorem feq_self (x : Float32) (h : x.isNaN = false) : feq x x = true := by
  simp [feq, h]

theorem feq_of_toInt (x y : Float32) (hx : x.isNaN = false) (hy : y.isNaN = false)
    (h : x.toInt = y.toInt) : feq x y = true := by
  simp [feq, hx, hy, h]

theorem isNaN_qNaN : qNaN.isNaN = true := by decide

theorem mag_signedZero (s : Bool) : (signedZero s).mag = 0 := by
  cases s <;> decide

theorem isNaN_signedZero (s : Bool) : (signedZero s).isNaN = false := by
  cases s <;> decide

theorem toInt_of_mag_zero (x : Float32) (h : x.mag = 0) : x.toInt = 0 := by
  simp [toInt, h]

/-- An infinity has the extended magnitude `2^277`. -/
theorem mag_of_isInf (x : Float32) (h : x.isInf = true) : x.mag = 8388608 * 2 ^ 254 := by
  simp only [isInf, Bool.and_eq_true, beq_iff_eq] at h
  simp [mag, h.1, h.2]

theorem isNaN_false_of_isInf (x : Float32) (h : x.isInf = true) : x.isNaN = false := by
  simp only [isInf, Bool.and_eq_true, beq_iff_eq] at h
  simp [isNaN, h.1, h.2]

end Float32

namespace Float32

/-- Swapping the operands of a subtraction negates the result, unless it is a NaN. -/
theorem sub_antisymm (a b : Float32) (h : (sub a b).isNaN = false) :
    feq (sub a b) (neg (sub b a)) = true := by
  simp only [sub, add, isNaN_neg, isInf_neg, sign_neg, toInt_neg] at h ⊢
  cases ha : a.isNaN
  case true => simp [ha, isNaN_qNaN] at h
  cases hb : b.isNaN
  case true => simp [ha, hb, isNaN_qNaN] at h
  simp only [ha, hb, Bool.or_false, Bool.false_eq_true, if_false] at h ⊢
  cases hai : a.isInf <;> cases hbi : b.isInf <;>
    simp only [hai, hbi, Bool.false_eq_true, if_false, if_true, Bool.true_and, Bool.false_and] at h ⊢
  · by_cases hv : a.toInt + -b.toInt = 0
    · have hv2 : b.toInt + -a.toInt = 0 := by omega
      simp only [hv, hv2, if_true]
      apply feq_of_toInt _ _ (isNaN_signedZero _)
      · rw [isNaN_neg]; exact isNaN_signedZero _
      · rw [toInt_neg, toInt_of_mag_zero _ (mag_signedZero _),
          toInt_of_mag_zero _ (mag_signedZero _)]
        rfl
    · have hv2 : ¬ (b.toInt + -a.toInt = 0) := by omega
      have hs : decide (b.toInt + -a.toInt < 0) = !decide (a.toInt + -b.toInt < 0) := by
        by_cases hlt : a.toInt + -b.toInt < 0
        · have : ¬ (b.toInt + -a.toInt < 0) := by omega
          simp [hlt, this]
        · have : b.toInt + -a.toInt < 0 := by omega
          simp [hlt, this]
      have hn : (b.toInt + -a.toInt).natAbs = (a.toInt + -b.toInt).natAbs := by omega
      simp only [hv, hv2, if_false, hs, hn, neg_roundRat, Bool.not_not]
      exact feq_self _ (isNaN_roundRat _ _ _)
  · exact feq_self _ h
  · rw [neg_neg]; exact feq_self _ h
  · have hinf : ∀ sa sb : Bool, a.sign = sa → b.sign = sb → (sa != !sb) = false →
        a.feq b.neg = true := by
      intro sa sb hsa hsb _
      apply feq_of_toInt _ _ ha (by rw [isNaN_neg]; exact hb)
      rw [toInt_neg]
      simp only [toInt, hsa, hsb, mag_of_isInf _ hai, mag_of_isInf _ hbi]
      cases sa <;> cases sb <;> simp_all
    cases hsa : a.sign <;> cases hsb : b.sign
    · simp [hsa, hsb, isNaN_qNaN] at h
    · simpa [hsa, hsb] using hinf false true hsa hsb rfl
    · simpa [hsa, hsb] using hinf true false hsa hsb rfl
    · simp [hsa, hsb, isNaN_qNaN] at h

end Float32

/-! ## Closed form of `Cross` -/

/-- The three components `Cross` computes, whatever the column counts. -/
theorem cross_formula (state : ThreadState) (p q : Id) :
    (glsl.Cross state [p, q]).result.fv 0
      = Float32.sub (Float32.mul ((state.GetSrc p).fv 1) ((state.GetSrc q).fv 2))
          (Float32.mul ((state.GetSrc q).fv 1) ((state.GetSrc p).fv 2)) ∧
    (glsl.Cross state [p, q]).result.fv 1
      = Float32.sub (Float32.mul ((state.GetSrc p).fv 2) ((state.GetSrc q).fv 0))
          (Float32.mul ((state.GetSrc q).fv 2) ((state.GetSrc p).fv 0)) ∧
    (glsl.Cross state [p, q]).result.fv 2
      = Float32.sub (Float32.mul ((state.GetSrc p).fv 0) ((state.GetSrc q).fv 1))
          (Float32.mul ((state.GetSrc q).fv 0) ((state.GetSrc p).fv 1)) := by
  refine ⟨?_, ?_, ?_⟩ <;> simp [glsl.Cross, ShaderVariable.setFv, ShaderVariable.fv]

/-! ## Closed forms of `Normalize` and the clamps -/

namespace glsl

theorem Normalize_result (state : ThreadState) (p : Id) :
    (Normalize state [p]).result
      = mapLanes (state.GetSrc p).columns
          (fun _ w => (Float32.mul (Float32.mk w)
            (Float32.div Float32.one (Float32.sqrt
              ((List.range (state.GetSrc p).columns).foldl
                (fun sqrlength c => Float32.add sqrlength
                  (Float32.mul ((state.GetSrc p).fv c) ((state.GetSrc p).fv c)))
                Float32.zero)))).bits)
          (state.GetSrc p) := by
  simp only [Normalize, List.length_cons, List.length_nil, ne_eq, not_true_eq_false, if_false,
    List.getD_cons_zero]
  exact forColumns_lanes
    (fun _ w => (Float32.mul (Float32.mk w)
      (Float32.div Float32.one (Float32.sqrt
        ((List.range (state.GetSrc p).columns).foldl
          (fun sqrlength c => Float32.add sqrlength
            (Float32.mul ((state.GetSrc p).fv c) ((state.GetSrc p).fv c)))
          Float32.zero)))).bits) _ _

theorem FClamp_result (state : ThreadState) (p q r : Id) :
    (FClamp state [p, q, r]).result
      = mapLanes (state.GetSrc p).columns
          (fun c w => (GLSLMin (GLSLMax (Float32.mk w) ((state.GetSrc q).fv c))
            ((state.GetSrc r).fv c)).bits)
          (state.GetSrc p) := by
  simp only [FClamp, List.length_cons, List.length_nil, ne_eq, not_true_eq_false, if_false,
    List.getD_cons_zero, List.getD_cons_succ]
  exact forColumns_lanes
    (fun c w => (GLSLMin (GLSLMax (Float32.mk w) ((state.GetSrc q).fv c))
      ((state.GetSrc r).fv c)).bits) _ _

theorem UClamp_result (state : ThreadState) (p q r : Id) :
    (UClamp state [p, q, r]).result
      = mapLanes (state.GetSrc p).columns
          (fun c w => GLSLMin (GLSLMax w ((state.GetSrc q).uv c)) ((state.GetSrc r).uv c))
          (state.GetSrc p) := by
  simp only [UClamp, List.length_cons, List.length_nil, ne_eq, not_true_eq_false, if_false,
    List.getD_cons_zero, List.getD_cons_succ]
  exact forColumns_lanes
    (fun c w => GLSLMin (GLSLMax w ((state.GetSrc q).uv c)) ((state.GetSrc r).uv c)) _ _

theorem SClamp_result (state : ThreadState) (p q r : Id) :
    (SClamp state [p, q, r]).result
      = mapLanes (state.GetSrc p).columns
          (fun c w => Word.ofInt32
            (GLSLMin (GLSLMax w.toInt32 ((state.GetSrc q).iv c)) ((state.GetSrc r).iv c)))
          (state.GetSrc p) := by
  simp only [SClamp, List.length_cons, List.length_nil, ne_eq, not_true_eq_false, if_false,
    List.getD_cons_zero, List.getD_cons_succ]
  exact forColumns_lanes
    (fun c w => Word.ofInt32
      (GLSLMin (GLSLMax w.toInt32 ((state.GetSrc q).iv c)) ((state.GetSrc r).iv c))) _ _

/-- The signed clamp stores one of its three operand lanes, so reading the
stored lane back gives the selected value. -/
theorem sclamp_lane (a b c : Word) :
    (Word.ofInt32 (GLSLMin (GLSLMax a.toInt32 b.toInt32) c.toInt32)).toInt32
      = GLSLMin (GLSLMax a.toInt32 b.toInt32) c.toInt32 := by
  simp only [GLSLMin, GLSLMax]
  split_ifs <;> rw [int32_roundtrip]

end glsl

/-! ## Binary32: order -/

theorem Float32.lt_iff (a b : Float32) : a < b ↔ Float32.lt a b = true := Iff.rfl

theorem Float32.isNaN_false_of_isFinite (x : Float32) (h : x.isFinite = true) :
    x.isNaN = false := by
  simp only [Float32.isFinite, decide_eq_true_eq] at h
  have : x.expo ≠ 255 := by omega
  simp [Float32.isNaN, this]

theorem Float32.not_isNaN_of_le (a b : Float32) (h : Float32.le a b = true) :
    a.isNaN = false ∧ b.isNaN = false ∧ a.toInt ≤ b.toInt := by
  simp only [Float32.le, Bool.and_eq_true, Bool.not_eq_true', decide_eq_true_eq] at h
  exact ⟨h.1.1, h.1.2, h.2⟩


/-! ## Binary32: representable values round to themselves -/

namespace Float32

theorem expSearch_scale (n d k : Nat) (hk : 0 < k) (fuel t : Nat) :
    expSearch (n * k) (d * k) fuel t = expSearch n d fuel t := by
  induction fuel generalizing t with
  | zero => rfl
  | succ m ih =>
    simp only [expSearch]
    have hiff : (n * k < d * k * 2 ^ (t + 24)) ↔ (n < d * 2 ^ (t + 24)) := by
      rw [Nat.mul_right_comm d k]
      exact Nat.mul_lt_mul_right hk
    simp only [hiff, ih]

/-- Scaling numerator and denominator by the same positive factor does not
change the rounding. -/
theorem roundMag_scale (n d k : Nat) (hk : 0 < k) :
    roundMag (n * k) (d * k) = roundMag n d := by
  simp only [roundMag, expSearch_scale n d k hk]
  have hd : ∀ t, d * k * 2 ^ t = d * 2 ^ t * k := fun t => Nat.mul_right_comm d k (2 ^ t)
  simp only [hd, Nat.mul_div_mul_right _ _ hk, Nat.mul_mod_mul_right]
  have h1 : ∀ D r : Nat, (D * k < 2 * (r * k)) ↔ (D < 2 * r) := by
    intro D r
    rw [← Nat.mul_assoc]
    exact Nat.mul_lt_mul_right hk
  have h2 : ∀ D r : Nat, (2 * (r * k) = D * k) ↔ (2 * r = D) := by
    intro D r
    rw [← Nat.mul_assoc]
    exact Nat.mul_left_inj (Nat.pos_iff_ne_zero.mp hk)
  simp only [h1, h2]

/-- The exponent search stops at `T` when the tests below `T` fail and the test
at `T` succeeds. -/
theorem expSearch_eq (n d T : Nat) (hT : n < d * 2 ^ (T + 24))
    (hbelow : ∀ t, t < T → ¬ n < d * 2 ^ (t + 24)) (fuel t : Nat) (ht : t ≤ T)
    (hfuel : T - t < fuel) : expSearch n d fuel t = T := by
  induction fuel generalizing t with
  | zero => omega
  | succ m ih =>
    simp only [expSearch]
    by_cases hEq : t = T
    · subst hEq
      simp [hT]
    · have hlt : t < T := by omega
      simp only [hbelow t hlt, if_false]
      exact ih (t + 1) (by omega) (by omega)

theorem roundMag_zero (d : Nat) (hd : 0 < d) : roundMag 0 d = 0 := by
  have hs : expSearch 0 d 254 0 = 0 := by
    apply expSearch_eq 0 d 0 (Nat.mul_pos hd (Nat.two_pow_pos _)) (by intro t ht; omega)
    · exact Nat.le_refl 0
    · decide
  simp [roundMag, hs]

theorem bits_decomp (x : Float32) :
    x.bits.val % 2147483648 = x.expo * 8388608 + x.frac ∧ x.frac < 8388608 ∧
      x.expo < 256 := by
  have hx := x.bits.isLt
  simp only [expo, frac]
  omega

/-- Rounding the magnitude of a finite datum returns its exponent and fraction
fields: representable values round to themselves. -/
theorem roundMag_mag (x : Float32) (hfin : x.isFinite = true) :
    roundMag x.mag 1 = x.bits.val % 2147483648 := by
  obtain ⟨hdec, hfrac, _⟩ := bits_decomp x
  simp only [isFinite, decide_eq_true_eq] at hfin
  rw [hdec]
  by_cases he : x.expo = 0
  · have hmag : x.mag = x.frac := by simp [mag, he]
    have hs : expSearch x.frac 1 254 0 = 0 := by
      apply expSearch_eq x.frac 1 0 (by norm_num; omega) (by intro t ht; omega)
      · exact Nat.le_refl 0
      · decide
    rw [hmag]
    simp only [roundMag, hs, he, Nat.pow_zero, Nat.mul_one, Nat.mod_one, Nat.div_one,
      Nat.zero_mul, Nat.zero_add, Nat.mul_zero]
    have hne : ¬ (1 < 0 ∨ 0 = 1 ∧ x.frac % 2 = 1) := by omega
    simp only [hne, if_false]
    split_ifs <;> omega
  · have hmag : x.mag = (8388608 + x.frac) * 2 ^ (x.expo - 1) := by simp [mag, he]
    have hpos : 0 < 2 ^ (x.expo - 1) := Nat.two_pow_pos _
    have hs : expSearch x.mag 1 254 0 = x.expo - 1 := by
      apply expSearch_eq x.mag 1 (x.expo - 1)
      · rw [hmag, Nat.one_mul, Nat.pow_add, Nat.mul_comm (2 ^ (x.expo - 1))]
        exact Nat.mul_lt_mul_of_pos_right (by norm_num; omega) hpos
      · intro t ht
        rw [hmag, Nat.one_mul, Nat.not_lt]
        have h1 : 2 ^ (t + 24) ≤ 2 ^ (x.expo - 1 + 23) :=
          Nat.pow_le_pow_right (by decide) (by omega)
        have h2 : 2 ^ (x.expo - 1 + 23) = 8388608 * 2 ^ (x.expo - 1) := by
          rw [Nat.pow_add, Nat.mul_comm]
        have h3 : 8388608 * 2 ^ (x.expo - 1) ≤ (8388608 + x.frac) * 2 ^ (x.expo - 1) :=
          Nat.mul_le_mul_right _ (by omega)
        omega
      · exact Nat.zero_le _
      · omega
    simp only [roundMag, hs, Nat.one_mul]
    rw [hmag, Nat.mul_div_cancel _ hpos, Nat.mul_mod_left]
    have hne : ¬ (2 ^ (x.expo - 1) < 2 * 0 ∨
        (2 * 0 = 2 ^ (x.expo - 1) ∧ (8388608 + x.frac) % 2 = 1)) := by
      omega
    simp only [hne, if_false]
    split_ifs <;> omega

theorem signBit_sign_add (x : Float32) :
    signBit x.sign + x.bits.val % 2147483648 = x.bits.val := by
  have hx := x.bits.isLt
  simp only [signBit, sign]
  by_cases h : 2147483648 ≤ x.bits.val
  · simp only [h, decide_True, if_true]
    omega
  · simp only [h, decide_False, Bool.false_eq_true, if_false]
    omega

/-- A finite datum is the rounding of its own value. -/
theorem roundRat_self (x : Float32) (hfin : x.isFinite = true) (k : Nat) (hk : 0 < k) :
    roundRat x.sign (x.mag * k) k = x := by
  apply ext_bits
  have hscale := roundMag_scale x.mag 1 k hk
  rw [Nat.one_mul] at hscale
  rw [bits_roundRat, hscale, roundMag_mag x hfin, signBit_sign_add]

theorem isFinite_iff (x : Float32) :
    x.isFinite = true ↔ (x.isNaN = false ∧ x.isInf = false) := by
  obtain ⟨_, _, he⟩ := bits_decomp x
  simp only [isFinite, isNaN, isInf, decide_eq_true_eq]
  constructor
  · intro h
    have : x.expo ≠ 255 := by omega
    simp [this]
  · intro h
    by_cases h255 : x.expo = 255
    · by_cases hf : x.frac = 0 <;> simp [h255, hf] at h
    · omega

theorem mag_pos_of_expo (x : Float32) (he : x.expo ≠ 0) : 0 < x.mag := by
  simp only [mag, he, if_false]
  exact Nat.mul_pos (by omega) (Nat.two_pow_pos _)

/-- A zero magnitude means both fields are zero: the datum is `+0` or `-0`. -/
theorem fields_of_mag_zero (x : Float32) (h : x.mag = 0) : x.expo = 0 ∧ x.frac = 0 := by
  by_cases he : x.expo = 0
  · simp only [mag, he, if_true] at h
    exact ⟨he, h⟩
  · have := mag_pos_of_expo x he
    omega

theorem isFinite_of_mag_zero (x : Float32) (h : x.mag = 0) : x.isFinite = true := by
  simp [isFinite, (fields_of_mag_zero x h).1]

theorem natAbs_toInt (x : Float32) : x.toInt.natAbs = x.mag := by
  simp only [toInt]
  cases x.sign <;> simp

theorem toInt_neg_iff (x : Float32) (h : x.toInt ≠ 0) : decide (x.toInt < 0) = x.sign := by
  simp only [toInt] at h ⊢
  by_cases hs : x.sign = true
  · simp only [hs, if_true] at h ⊢
    simp only [decide_eq_true_eq]
    omega
  · have hs' : x.sign = false := by simpa using hs
    simp only [hs', Bool.false_eq_true, if_false] at h ⊢
    simp only [decide_eq_false_iff_not]
    omega

/-- The identity `x * 1.0f = x`, bit for bit, for every `x` that is not a NaN. -/
theorem mul_one (x : Float32) (hx : x.isNaN = false) : mul x one = x := by
  have h1 : one.isNaN = false := by decide
  have h2 : one.isInf = false := by decide
  have h3 : one.mag = 2 ^ 149 := by decide
  have h4 : one.sign = false := by decide
  simp only [mul, hx, h1, h2, h3, h4, Bool.or_false, Bool.false_eq_true, if_false,
    Bool.bne_false]
  cases hi : x.isInf
  · simp only [Bool.false_eq_true, if_false]
    exact roundRat_self x ((isFinite_iff x).mpr ⟨hx, hi⟩) _ (Nat.two_pow_pos _)
  · have hm := mag_of_isInf x hi
    have hne : ¬ (x.mag = 0 ∨ 2 ^ 149 = 0) := by
      rw [hm]
      norm_num
    simp only [if_true, hne, if_false]
    apply ext_bits
    obtain ⟨hdec, _, _⟩ := bits_decomp x
    simp only [isInf, Bool.and_eq_true, beq_iff_eq] at hi
    rw [hi.1, hi.2] at hdec
    have hs := signBit_sign_add x
    have hb := signBit_le x.sign
    simp only [signedInf, bits_ofBits_mod]
    omega

/-- A finite datum times a zero is a zero. -/
theorem mag_mul_zero_right (y z : Float32) (hy : y.isFinite = true) (hz : z.mag = 0) :
    (mul y z).mag = 0 ∧ (mul y z).isNaN = false := by
  obtain ⟨hyn, hyi⟩ := (isFinite_iff y).mp hy
  obtain ⟨hzn, hzi⟩ := (isFinite_iff z).mp (isFinite_of_mag_zero z hz)
  simp only [mul, hyn, hzn, hyi, hzi, Bool.or_false, Bool.false_eq_true, if_false, hz,
    Nat.mul_zero]
  refine ⟨?_, isNaN_roundRat _ _ _⟩
  have hb := bits_roundRat (y.sign != z.sign) 0 (2 ^ 149)
  rw [roundMag_zero _ (Nat.two_pow_pos _)] at hb
  simp only [mag, expo, frac, hb]
  cases (y.sign != z.sign) <;> simp [signBit]

theorem mag_mul_zero_left (z y : Float32) (hy : y.isFinite = true) (hz : z.mag = 0) :
    (mul z y).mag = 0 ∧ (mul z y).isNaN = false := by
  obtain ⟨hyn, hyi⟩ := (isFinite_iff y).mp hy
  obtain ⟨hzn, hzi⟩ := (isFinite_iff z).mp (isFinite_of_mag_zero z hz)
  simp only [mul, hyn, hzn, hyi, hzi, Bool.or_false, Bool.false_eq_true, if_false, hz,
    Nat.zero_mul]
  refine ⟨?_, isNaN_roundRat _ _ _⟩
  have hb := bits_roundRat (z.sign != y.sign) 0 (2 ^ 149)
  rw [roundMag_zero _ (Nat.two_pow_pos _)] at hb
  simp only [mag, expo, frac, hb]
  cases (z.sign != y.sign) <;> simp [signBit]

/-- Adding a zero on the right leaves a non-NaN value unchanged up to `==`. -/
theorem add_zero_right (x z : Float32) (hx : x.isNaN = false) (hz : z.mag = 0)
    (hzn : z.isNaN = false) : feq (add x z) x = true := by
  obtain ⟨_, hzi⟩ := (isFinite_iff z).mp (isFinite_of_mag_zero z hz)
  have hzt := toInt_of_mag_zero z hz
  simp only [add, hx, hzn, hzi, Bool.or_false, Bool.false_eq_true, if_false, Bool.false_and,
    hzt, Int.add_zero]
  cases hi : x.isInf
  · simp only [Bool.false_eq_true, if_false]
    by_cases hv : x.toInt = 0
    · simp only [hv, if_true]
      exact feq_of_toInt _ _ (isNaN_signedZero _) hx
        (by rw [toInt_of_mag_zero _ (mag_signedZero _), hv])
    · simp only [hv, if_false, toInt_neg_iff x hv, natAbs_toInt]
      have h := roundRat_self x ((isFinite_iff x).mpr ⟨hx, hi⟩) 1 (by decide)
      rw [Nat.mul_one] at h
      rw [h]
      exact feq_self x hx
  · simp only [if_true]
    exact feq_self x hx

/-- Adding a zero on the left leaves a non-NaN value unchanged up to `==`. -/
theorem add_zero_left (z y : Float32) (hy : y.isNaN = false) (hz : z.mag = 0)
    (hzn : z.isNaN = false) : feq (add z y) y = true := by
  obtain ⟨_, hzi⟩ := (isFinite_iff z).mp (isFinite_of_mag_zero z hz)
  have hzt := toInt_of_mag_zero z hz
  simp only [add, hy, hzn, hzi, Bool.or_false, Bool.false_eq_true, if_false,
    hzt, Int.zero_add]
  cases hi : y.isInf
  · simp only [Bool.false_eq_true, if_false]
    by_cases hv : y.toInt = 0
    · simp only [hv, if_true]
      exact feq_of_toInt _ _ (isNaN_signedZero _) hy
        (by rw [toInt_of_mag_zero _ (mag_signedZero _), hv])
    · simp only [hv, if_false, toInt_neg_iff y hv, natAbs_toInt]
      have h := roundRat_self y ((isFinite_iff y).mpr ⟨hy, hi⟩) 1 (by decide)
      rw [Nat.mul_one] at h
      rw [h]
      exact feq_self y hy
  · simp only [if_true]
    exact feq_self y hy

/-- The magnitude is strictly increasing in the exponent and fraction fields. -/
theorem mag_lt_of_bits_lt (x y : Float32)
    (h : x.bits.val % 2147483648 < y.bits.val % 2147483648) : x.mag < y.mag := by
  obtain ⟨hdx, hfx, _⟩ := bits_decomp x
  obtain ⟨hdy, hfy, _⟩ := bits_decomp y
  rw [hdx, hdy] at h
  by_cases hee : x.expo = y.expo
  · have hf : x.frac < y.frac := by omega
    by_cases h0 : y.expo = 0
    · simp only [mag, hee, h0, if_true]
      exact hf
    · simp only [mag, hee, h0, if_false]
      exact Nat.mul_lt_mul_of_pos_right (by omega) (Nat.two_pow_pos _)
  · have hlt : x.expo < y.expo := by omega
    have hy0 : y.expo ≠ 0 := by omega
    have hylow : 8388608 * 2 ^ (y.expo - 1) ≤ y.mag := by
      simp only [mag, hy0, if_false]
      exact Nat.mul_le_mul_right _ (by omega)
    by_cases hx0 : x.expo = 0
    · have h1 : 1 ≤ 2 ^ (y.expo - 1) := Nat.two_pow_pos _
      have hxm : x.mag = x.frac := by simp [mag, hx0]
      have h2 : 8388608 * 1 ≤ 8388608 * 2 ^ (y.expo - 1) := Nat.mul_le_mul_left _ h1
      omega
    · have hxm : x.mag < 16777216 * 2 ^ (x.expo - 1) := by
        simp only [mag, hx0, if_false]
        exact Nat.mul_lt_mul_of_pos_right (by omega) (Nat.two_pow_pos _)
      have hpow : 2 * 2 ^ (x.expo - 1) ≤ 2 ^ (y.expo - 1) := by
        have h3 : 2 ^ (x.expo - 1 + 1) ≤ 2 ^ (y.expo - 1) :=
          Nat.pow_le_pow_right (by decide) (by omega)
        rw [Nat.pow_succ] at h3
        omega
      have h4 : 16777216 * 2 ^ (x.expo - 1) = 8388608 * (2 * 2 ^ (x.expo - 1)) := by ring
      have h5 : 8388608 * (2 * 2 ^ (x.expo - 1)) ≤ 8388608 * 2 ^ (y.expo - 1) :=
        Nat.mul_le_mul_left _ hpow
      omega

/-- Equal magnitudes have equal exponent and fraction fields. -/
theorem bits_eq_of_mag_eq (x y : Float32) (h : x.mag = y.mag) :
    x.bits.val % 2147483648 = y.bits.val % 2147483648 := by
  rcases Nat.lt_trichotomy (x.bits.val % 2147483648) (y.bits.val % 2147483648) with h1 | h1 | h1
  · have := mag_lt_of_bits_lt x y h1
    omega
  · exact h1
  · have := mag_lt_of_bits_lt y x h1
    omega

/-- A value that compares `==` to a non-zero one has the same bit pattern. -/
theorem eq_of_feq (x y : Float32) (h : feq x y = true) (hy : y.mag ≠ 0) : x = y := by
  simp only [feq, Bool.and_eq_true, Bool.not_eq_true', decide_eq_true_eq] at h
  obtain ⟨⟨_, _⟩, ht⟩ := h
  have hmag : x.mag = y.mag := by
    have := congrArg Int.natAbs ht
    simpa only [natAbs_toInt] using this
  have hsign : x.sign = y.sign := by
    simp only [toInt] at ht
    cases hsx : x.sign <;> cases hsy : y.sign <;>
      simp only [hsx, hsy, if_true, if_false, Bool.false_eq_true] at ht <;>
      first | rfl | omega
  apply ext_bits
  have h1 := signBit_sign_add x
  have h2 := signBit_sign_add y
  have h3 := bits_eq_of_mag_eq x y hmag
  rw [hsign] at h1
  omega

theorem mag_zero_of_feq_zero (a : Float32) (h : feq a zero = true) :
    a.mag = 0 ∧ a.isNaN = false := by
  simp only [feq, Bool.and_eq_true, Bool.not_eq_true', decide_eq_true_eq] at h
  obtain ⟨⟨ha, _⟩, ht⟩ := h
  have hz : zero.toInt = 0 := by decide
  rw [hz] at ht
  have := congrArg Int.natAbs ht
  rw [natAbs_toInt] at this
  exact ⟨by simpa using this, ha⟩

/-- The difference `1.0f - a` for a zero `a` (of either sign) is `1.0f`. -/
theorem one_sub_zero (a : Float32) (h : a.mag = 0) : sub one a = one := by
  obtain ⟨he, hf⟩ := fields_of_mag_zero a h
  obtain ⟨hdec, _, _⟩ := bits_decomp a
  rw [he, hf] at hdec
  have ha := a.bits.isLt
  have hcases : a = ofBits 0 ∨ a = ofBits 2147483648 := by
    by_cases hs : a.bits.val < 2147483648
    · left
      apply ext_bits
      rw [bits_ofBits_mod]
      omega
    · right
      apply ext_bits
      rw [bits_ofBits_mod]
      omega
  rcases hcases with rfl | rfl <;> decide

theorem one_sub_one : sub one one = zero := by decide

theorem mag_one_ne_zero : one.mag ≠ 0 := by decide

theorem mag_zero_eq : zero.mag = 0 := by decide

end Float32

/-! ## Closed form of `FMix` -/

theorem glsl.FMix_result (state : ThreadState) (p q r : Id) :
    (glsl.FMix state [p, q, r]).result
      = mapLanes (state.GetSrc p).columns
          (fun c w => (Float32.add
            (Float32.mul (Float32.mk w) (Float32.sub Float32.one ((state.GetSrc r).fv c)))
            (Float32.mul ((state.GetSrc q).fv c) ((state.GetSrc r).fv c))).bits)
          (state.GetSrc p) := by
  simp only [glsl.FMix, List.length_cons, List.length_nil, ne_eq, not_true_eq_false, if_false,
    List.getD_cons_zero, List.getD_cons_succ]
  exact forColumns_lanes
    (fun c w => (Float32.add
      (Float32.mul (Float32.mk w) (Float32.sub Float32.one ((state.GetSrc r).fv c)))
      (Float32.mul ((state.GetSrc q).fv c) ((state.GetSrc r).fv c))).bits) _ _

/-! ## Closed forms of the remaining component-wise instructions -/

namespace glsl

theorem FAbs_result (state : ThreadState) (p : Id) :
    (FAbs state [p]).result
      = mapLanes (state.GetSrc p).columns
          (fun _ w => (Float32.abs (Float32.mk w)).bits) (state.GetSrc p) := by
  simp only [FAbs, List.length_cons, List.length_nil, ne_eq, not_true_eq_false, if_false,
    List.getD_cons_zero]
  exact forColumns_lanes (fun _ w => (Float32.abs (Float32.mk w)).bits) _ _

theorem Floor_result (state : ThreadState) (p : Id) :
    (Floor state [p]).result
      = mapLanes (state.GetSrc p).columns
          (fun _ w => (Float32.floor (Float32.mk w)).bits) (state.GetSrc p) := by
  simp only [Floor, List.length_cons, List.length_nil, ne_eq, not_true_eq_false, if_false,
    List.getD_cons_zero]
  exact forColumns_lanes (fun _ w => (Float32.floor (Float32.mk w)).bits) _ _

theorem Pow_result (powf : Float32 → Float32 → Float32) (state : ThreadState) (p q : Id) :
    (Pow powf state [p, q]).result
      = mapLanes (state.GetSrc p).columns
          (fun c w => (powf (Float32.mk w) ((state.GetSrc q).fv c)).bits) (state.GetSrc p) := by
  simp only [Pow, List.length_cons, List.length_nil, ne_eq, not_true_eq_false, if_false,
    List.getD_cons_zero, List.getD_cons_succ]
  exact forColumns_lanes (fun c w => (powf (Float32.mk w) ((state.GetSrc q).fv c)).bits) _ _

theorem SMax_result (state : ThreadState) (p q : Id) :
    (SMax state [p, q]).result
      = mapLanes (state.GetSrc p).columns
          (fun c w => Word.ofInt32 (GLSLMax w.toInt32 ((state.GetSrc q).iv c)))
          (state.GetSrc p) := by
  simp only [SMax, List.length_cons, List.length_nil, ne_eq, not_true_eq_false, if_false,
    List.getD_cons_zero, List.getD_cons_succ]
  exact forColumns_lanes
    (fun c w => Word.ofInt32 (GLSLMax w.toInt32 ((state.GetSrc q).iv c))) _ _

theorem UMin_result (state : ThreadState) (p q : Id) :
    (UMin state [p, q]).result
      = mapLanes (state.GetSrc p).columns
          (fun c w => GLSLMin w ((state.GetSrc q).uv c))
          (state.GetSrc p) := by
  simp only [UMin, List.length_cons, List.length_nil, ne_eq, not_true_eq_false, if_false,
    List.getD_cons_zero, List.getD_cons_succ]
  exact forColumns_lanes (fun c w => GLSLMin w ((state.GetSrc q).uv c)) _ _

theorem SMin_result (state : ThreadState) (p q : Id) :
    (SMin state [p, q]).result
      = mapLanes (state.GetSrc p).columns
          (fun c w => Word.ofInt32 (GLSLMin w.toInt32 ((state.GetSrc q).iv c)))
          (state.GetSrc p) := by
  simp only [SMin, List.length_cons, List.length_nil, ne_eq, not_true_eq_false, if_false,
    List.getD_cons_zero, List.getD_cons_succ]
  exact forColumns_lanes
    (fun c w => Word.ofInt32 (GLSLMin w.toInt32 ((state.GetSrc q).iv c))) _ _

/-- The signed maximum stores one of its two operand lanes. -/
theorem smax_lane (a b : Word) :
    Word.ofInt32 (GLSLMax a.toInt32 b.toInt32) = if a.toInt32 < b.toInt32 then b else a := by
  simp only [GLSLMax]
  split_ifs <;> rw [int32_roundtrip]

/-- The signed minimum stores one of its two operand lanes. -/
theorem smin_lane (a b : Word) :
    Word.ofInt32 (GLSLMin a.toInt32 b.toInt32) = if b.toInt32 < a.toInt32 then b else a := by
  simp only [GLSLMin]
  split_ifs <;> rw [int32_roundtrip]

end glsl

/-! ## Binary32: absolute value -/

namespace Float32

theorem abs_eq_or_neg (x : Float32) : abs x = x ∨ abs x = neg x := by
  have hx := x.bits.isLt
  by_cases h : x.bits.val < 2147483648
  · left
    apply ext_bits
    simp only [abs, bits_ofBits_mod]
    omega
  · right
    apply ext_bits
    simp only [abs, neg, bits_ofBits_mod]
    omega

theorem isNaN_abs (x : Float32) : (abs x).isNaN = x.isNaN := by
  have hx := x.bits.isLt
  have he : (abs x).expo = x.expo := by
    simp only [expo, abs, bits_ofBits_mod]
    omega
  have hf : (abs x).frac = x.frac := by
    simp only [frac, abs, bits_ofBits_mod]
    omega
  simp only [isNaN, he, hf]

theorem sign_abs (x : Float32) : (abs x).sign = false := by
  have hx := x.bits.isLt
  simp only [sign, abs, bits_ofBits_mod, decide_eq_false_iff_not]
  omega

theorem zero_le_abs (x : Float32) (hx : x.isNaN = false) : le zero (abs x) = true := by
  have hz : zero.isNaN = false := by decide
  have hzt : zero.toInt = 0 := by decide
  have ht : (abs x).toInt = ((abs x).mag : Int) := by
    simp only [toInt, sign_abs, Bool.false_eq_true, if_false]
  simp only [le, hz, isNaN_abs, hx, Bool.not_false, Bool.true_and, decide_eq_true_eq, hzt, ht]
  omega

end Float32

/-! ## Lanes of operands -/

theorem fv_congr (v v2 : ShaderVariable) (c : Nat) (h : v2.value c = v.value c) :
    v2.fv c = v.fv c := by
  simp only [ShaderVariable.fv, h]

/-! ## Binary32: sign of a product -/

namespace Float32

theorem sign_roundRat (s : Bool) (num den : Nat) : (roundRat s num den).sign = s := by
  have h1 := roundMag_le num den
  have hb := bits_roundRat s num den
  simp only [sign, hb]
  cases s
  · simp only [signBit, Bool.false_eq_true, if_false, decide_eq_false_iff_not]
    omega
  · simp only [signBit, if_true, decide_eq_true_eq]
    omega

theorem sign_signedInf (s : Bool) : (signedInf s).sign = s := by
  cases s <;> decide

theorem isNaN_signedInf (s : Bool) : (signedInf s).isNaN = false := by
  cases s <;> decide

/-- Multiplying by a positive, finite, non-zero factor keeps the sign bit and
produces no NaN. -/
theorem sign_mul_pos (x y : Float32) (hx : x.isNaN = false) (hy : y.isFinite = true)
    (hys : y.sign = false) (hym : y.mag ≠ 0) :
    (mul x y).isNaN = false ∧ (mul x y).sign = x.sign := by
  obtain ⟨hyn, hyi⟩ := (isFinite_iff y).mp hy
  simp only [mul, hx, hyn, hyi, hys, Bool.or_false, Bool.false_eq_true, if_false, Bool.bne_false]
  cases hxi : x.isInf
  · simp only [Bool.false_eq_true, if_false]
    exact ⟨isNaN_roundRat _ _ _, sign_roundRat _ _ _⟩
  · have hm := mag_of_isInf x hxi
    have hne : ¬ (x.mag = 0 ∨ y.mag = 0) := by
      rw [hm]
      intro h
      rcases h with h | h
      · have := Nat.two_pow_pos 254
        omega
      · exact hym h
    simp only [if_true, hne, if_false]
    exact ⟨isNaN_signedInf _, sign_signedInf _⟩

end Float32

/-! ## Binary32: exact results and `floorf` -/

namespace Float32

theorem expSearch_le (n d T : Nat) (hT : n < d * 2 ^ (T + 24)) (fuel t : Nat) (ht : t ≤ T) :
    expSearch n d fuel t ≤ T := by
  induction fuel generalizing t with
  | zero => exact ht
  | succ m ih =>
    simp only [expSearch]
    by_cases htest : n < d * 2 ^ (t + 24)
    · simp only [htest, if_true]
      exact ht
    · simp only [htest, if_false]
      have hne : t ≠ T := by
        intro h
        rw [h] at htest
        exact htest hT
      exact ih (t + 1) (by omega)

/-- With enough fuel the exponent search returns the least exponent whose test
succeeds. -/
theorem expSearch_spec (n d T : Nat) (hT : n < d * 2 ^ (T + 24)) (fuel t : Nat) (ht : t ≤ T)
    (hfuel : T - t < fuel) :
    n < d * 2 ^ (expSearch n d fuel t + 24) ∧
    ∀ u, t ≤ u → u < expSearch n d fuel t → ¬ n < d * 2 ^ (u + 24) := by
  induction fuel generalizing t with
  | zero => omega
  | succ m ih =>
    simp only [expSearch]
    by_cases htest : n < d * 2 ^ (t + 24)
    · rw [if_pos htest]
      exact ⟨htest, fun u h1 h2 => by omega⟩
    · rw [if_neg htest]
      have hne : t ≠ T := by
        intro h
        rw [h] at htest
        exact htest hT
      obtain ⟨h1, h2⟩ := ih (t + 1) (by omega) (by omega)
      refine ⟨h1, ?_⟩
      intro u hu hlt
      by_cases hut : u = t
      · rw [hut]
        exact htest
      · exact h2 u (by omega) hlt

/-- A value below the overflow threshold that is a multiple of the unit of its
binade is representable: rounding returns it unchanged. -/
theorem mag_roundRat_exact (s : Bool) (n : Nat) (hn : n < 2 ^ 277)
    (hdiv : 2 ^ expSearch n 1 254 0 ∣ n) : (roundRat s n 1).mag = n := by
  have hT : n < 1 * 2 ^ (253 + 24) := by
    rw [Nat.one_mul]
    exact hn
  have hle := expSearch_le n 1 253 hT 254 0 (Nat.zero_le _)
  obtain ⟨htest, hmin⟩ := expSearch_spec n 1 253 hT 254 0 (Nat.zero_le _) (by decide)
  rw [Nat.one_mul] at htest
  have hb := bits_roundRat s n 1
  have hsb := signBit_le s
  simp only [roundMag, Nat.one_mul] at hb
  generalize expSearch n 1 254 0 = t at hdiv hle htest hmin hb
  have hpos : 0 < 2 ^ t := Nat.two_pow_pos t
  have hq : n / 2 ^ t < 16777216 := by
    apply Nat.div_lt_of_lt_mul
    rw [Nat.pow_add] at htest
    exact htest
  have hcancel : n / 2 ^ t * 2 ^ t = n := Nat.div_mul_cancel hdiv
  have hrem : n % 2 ^ t = 0 := Nat.mod_eq_zero_of_dvd hdiv
  have hlow : t ≠ 0 → 8388608 ≤ n / 2 ^ t := by
    intro ht0
    have h1 := hmin (t - 1) (Nat.zero_le _) (by omega)
    rw [Nat.one_mul, Nat.not_lt] at h1
    rw [Nat.le_div_iff_mul_le hpos]
    have h2 : 2 ^ (t - 1 + 24) = 8388608 * 2 ^ t := by
      have : t - 1 + 24 = 23 + t := by omega
      rw [this, Nat.pow_add]
    omega
  have hne : ¬ (2 ^ t < 2 * 0 ∨ (2 * 0 = 2 ^ t ∧ n / 2 ^ t % 2 = 1)) := by omega
  rw [hrem] at hb
  simp only [hne, if_false] at hb
  have hnov : ¬ (2139095040 ≤ t * 8388608 + n / 2 ^ t) := by omega
  simp only [hnov, if_false] at hb
  have hsign : signBit s = 0 ∨ signBit s = 2147483648 := by
    cases s <;> simp [signBit]
  by_cases ht0 : t = 0
  · subst ht0
    simp only [Nat.pow_zero, Nat.div_one, Nat.zero_mul, Nat.zero_add] at hb hq
    by_cases hsmall : n < 8388608
    · have he : (roundRat s n 1).expo = 0 := by
        simp only [expo, hb]
        omega
      have hf : (roundRat s n 1).frac = n := by
        simp only [frac, hb]
        omega
      simp only [mag, he, hf, if_true]
    · have he : (roundRat s n 1).expo = 1 := by
        simp only [expo, hb]
        omega
      have hf : (roundRat s n 1).frac = n - 8388608 := by
        simp only [frac, hb]
        omega
      simp only [mag, he, hf]
      norm_num
      omega
  · have hl := hlow ht0
    have he : (roundRat s n 1).expo = t + 1 := by
      simp only [expo, hb]
      omega
    have hf : (roundRat s n 1).frac = n / 2 ^ t - 8388608 := by
      simp only [frac, hb]
      omega
    simp only [mag, he, hf, Nat.add_sub_cancel]
    have h3 : 8388608 + (n / 2 ^ t - 8388608) = n / 2 ^ t := by omega
    rw [if_neg (by omega), h3, hcancel]

/-- Every integer of magnitude at most `2^24` is representable: `k * 2^149` units
round to themselves. -/
theorem mag_roundRat_int (s : Bool) (k : Nat) (hk : k ≤ 16777216) :
    (roundRat s (k * 2 ^ 149) 1).mag = k * 2 ^ 149 := by
  have hn : k * 2 ^ 149 < 2 ^ 277 := by
    have h1 : k * 2 ^ 149 ≤ 16777216 * 2 ^ 149 := Nat.mul_le_mul_right _ hk
    have h2 : (16777216 : Nat) * 2 ^ 149 < 2 ^ 277 := by norm_num
    omega
  apply mag_roundRat_exact s _ hn
  have hT : k * 2 ^ 149 < 1 * 2 ^ (150 + 24) := by
    have h1 : k * 2 ^ 149 ≤ 16777216 * 2 ^ 149 := Nat.mul_le_mul_right _ hk
    have h2 : (16777216 : Nat) * 2 ^ 149 < 1 * 2 ^ (150 + 24) := by norm_num
    omega
  have hle := expSearch_le _ 1 150 hT 254 0 (Nat.zero_le _)
  obtain ⟨_, hmin⟩ := expSearch_spec _ 1 150 hT 254 0 (Nat.zero_le _) (by decide)
  generalize expSearch (k * 2 ^ 149) 1 254 0 = t at hle hmin
  by_cases ht : t ≤ 149
  · exact Dvd.dvd.mul_left (Nat.pow_dvd_pow 2 ht) k
  · have ht150 : t = 150 := by omega
    subst ht150
    have h1 := hmin 149 (Nat.zero_le _) (by decide)
    rw [Nat.one_mul, Nat.not_lt] at h1
    have h2 : (2 : Nat) ^ (149 + 24) = 16777216 * 2 ^ 149 := by norm_num
    rw [h2] at h1
    have h3 : 16777216 ≤ k := Nat.le_of_mul_le_mul_right h1 (Nat.two_pow_pos 149)
    have hk2 : k = 16777216 := by omega
    subst hk2
    norm_num

theorem toInt_roundRat_int (s : Bool) (k : Nat) (hk : k ≤ 16777216) :
    (roundRat s (k * 2 ^ 149) 1).toInt
      = if s then -((k * 2 ^ 149 : Nat) : Int) else ((k * 2 ^ 149 : Nat) : Int) := by
  simp only [toInt, sign_roundRat, mag_roundRat_int s k hk]

/-- A finite datum of magnitude at least `2^24` is an integer. -/
theorem dvd_mag_of_large (x : Float32) (h : 16777216 * 2 ^ 149 ≤ x.mag) :
    2 ^ 149 ∣ x.mag := by
  obtain ⟨_, hf, _⟩ := bits_decomp x
  by_cases he : x.expo = 0
  · simp only [mag, he, if_true] at h
    have h1 : (8388608 : Nat) ≤ 16777216 * 2 ^ 149 := by norm_num
    omega
  · simp only [mag, he, if_false] at h ⊢
    by_cases hbig : 149 ≤ x.expo - 1
    · exact Dvd.dvd.mul_left (Nat.pow_dvd_pow 2 hbig) _
    · have h1 : (2 : Nat) ^ (x.expo - 1) ≤ 2 ^ 148 :=
        Nat.pow_le_pow_right (by decide) (by omega)
      have h2 : (8388608 + x.frac) * 2 ^ (x.expo - 1) ≤ (8388608 + x.frac) * 2 ^ 148 :=
        Nat.mul_le_mul_left _ h1
      have h3 : (8388608 + x.frac) * 2 ^ 148 < 16777216 * 2 ^ 148 :=
        Nat.mul_lt_mul_of_pos_right (by omega) (Nat.two_pow_pos 148)
      have h4 : (16777216 : Nat) * 2 ^ 148 ≤ 16777216 * 2 ^ 149 := by norm_num
      omega

theorem toInt_bounds (x : Float32) : x.toInt = (x.mag : Int) ∨ x.toInt = -(x.mag : Int) := by
  simp only [toInt]
  cases x.sign <;> simp

/-- The result of `floorf` on a finite datum, in exact arithmetic: the largest
multiple of one (`2^149` units) that is not above `x`. -/
theorem toInt_floor (x : Float32) (hfin : x.isFinite = true) :
    (floor x).toInt = x.toInt / ((2 ^ 149 : Nat) : Int) * ((2 ^ 149 : Nat) : Int) ∧
    (floor x).isNaN = false := by
  obtain ⟨hn, hi⟩ := (isFinite_iff x).mp hfin
  have hU : ((2 ^ 149 : Nat) : Int) = 713623846352979940529142984724747568191373312 := by
    norm_num
  have hUn : (2 ^ 149 : Nat) = 713623846352979940529142984724747568191373312 := by
    norm_num
  simp only [floor, hn, hi, Bool.false_eq_true, if_false]
  by_cases hfl : x.toInt / ((2 ^ 149 : Nat) : Int) = 0
  · rw [if_pos hfl, hfl]
    exact ⟨by rw [toInt_of_mag_zero _ (mag_signedZero _)]; simp, isNaN_signedZero _⟩
  · rw [if_neg hfl]
    refine ⟨?_, isNaN_roundRat _ _ _⟩
    have hb := toInt_bounds x
    by_cases hbig : 16777216 * 2 ^ 149 ≤ x.mag
    · obtain ⟨k, hk⟩ := dvd_mag_of_large x hbig
      have hxk : x.toInt = x.toInt / ((2 ^ 149 : Nat) : Int) * ((2 ^ 149 : Nat) : Int) := by
        rw [hU]
        rw [hUn] at hk
        omega
      have hne : x.toInt ≠ 0 := by
        intro h0
        rw [h0] at hfl
        simp at hfl
      have hs : decide (x.toInt / ((2 ^ 149 : Nat) : Int) < 0) = x.sign := by
        rw [← toInt_neg_iff x hne]
        have : (x.toInt / ((2 ^ 149 : Nat) : Int) < 0) ↔ (x.toInt < 0) := by
          rw [hU] at hxk ⊢
          omega
        simp only [this]
      have hm : (x.toInt / ((2 ^ 149 : Nat) : Int)).natAbs * 2 ^ 149 = x.mag := by
        have h1 := natAbs_toInt x
        rw [hU] at hxk ⊢
        rw [hUn]
        omega
      rw [hs, hm]
      have hself := roundRat_self x hfin 1 (by decide)
      rw [Nat.mul_one] at hself
      rw [hself]
      exact hxk
    · have hkb : (x.toInt / ((2 ^ 149 : Nat) : Int)).natAbs ≤ 16777216 := by
        rw [hU]
        rw [hUn] at hbig
        omega
      rw [toInt_roundRat_int _ _ hkb]
      rw [hU] at hfl ⊢
      by_cases hneg : x.toInt / 713623846352979940529142984724747568191373312 < 0
      · simp only [hneg, decide_True, if_true]
        rw [Nat.cast_mul, hU]
        omega
      · simp only [hneg, decide_False, Bool.false_eq_true, if_false]
        rw [Nat.cast_mul, hU]
        omega

theorem toInt_one : one.toInt = ((2 ^ 149 : Nat) : Int) := by decide

/-- For a finite `x`, `floorf x <= x` and `x` lies less than one above it, in
exact arithmetic; the result is finite. -/
theorem floor_bounds (x : Float32) (hfin : x.isFinite = true) :
    (floor x).toInt ≤ x.toInt ∧ x.toInt < (floor x).toInt + one.toInt ∧
    (floor x).isFinite = true := by
  obtain ⟨hfl, hnan⟩ := toInt_floor x hfin
  have hU : ((2 ^ 149 : Nat) : Int) = 713623846352979940529142984724747568191373312 := by
    norm_num
  rw [toInt_one]
  rw [hU] at hfl ⊢
  refine ⟨by omega, by omega, ?_⟩
  rw [isFinite_iff]
  refine ⟨hnan, ?_⟩
  cases hinf : (floor x).isInf
  · rfl
  · exfalso
    have hm := mag_of_isInf _ hinf
    have hx : x.mag ≤ 16777215 * 2 ^ 253 := by
      obtain ⟨_, hf, _⟩ := bits_decomp x
      simp only [isFinite, decide_eq_true_eq] at hfin
      by_cases he : x.expo = 0
      · simp only [mag, he, if_true]
        have : (8388608 : Nat) ≤ 16777215 * 2 ^ 253 := by norm_num
        omega
      · simp only [mag, he, if_false]
        have h1 : (2 : Nat) ^ (x.expo - 1) ≤ 2 ^ 253 :=
          Nat.pow_le_pow_right (by decide) (by omega)
        have h2 : (8388608 + x.frac) * 2 ^ (x.expo - 1) ≤ (8388608 + x.frac) * 2 ^ 253 :=
          Nat.mul_le_mul_left _ h1
        have h3 : (8388608 + x.frac) * 2 ^ 253 ≤ 16777215 * 2 ^ 253 :=
          Nat.mul_le_mul_right _ (by omega)
        omega
    have h5 : (8388608 : Nat) * 2 ^ 254
        = 242833611528216133864932738352939863330300854881517440156476551217363035650651062272 := by
      norm_num
    have h5b : (16777215 : Nat) * 2 ^ 253
        = 242833597054204979200408310406566737244312373222769356951406046285165034661509857280 := by
      norm_num
    rw [h5b] at hx
    rw [h5] at hm
    have h6 := natAbs_toInt (floor x)
    have h7 := natAbs_toInt x
    omega

/-- Below `2^24` the binary32 sum `floorf x + 1.0f` is exact, so `x` compares
less than it. -/
theorem lt_floor_add_one (x : Float32) (hfin : x.isFinite = true)
    (hsmall : x.mag < 16777216 * 2 ^ 149) : lt x (add (floor x) one) = true := by
  obtain ⟨hfl, hnan⟩ := toInt_floor x hfin
  obtain ⟨_, hupper, hffin⟩ := floor_bounds x hfin
  obtain ⟨hxn, _⟩ := (isFinite_iff x).mp hfin
  obtain ⟨_, hfi⟩ := (isFinite_iff _).mp hffin
  have h1n : one.isNaN = false := by decide
  have h1i : one.isInf = false := by decide
  have hU : ((2 ^ 149 : Nat) : Int) = 713623846352979940529142984724747568191373312 := by
    norm_num
  have hUn : (2 ^ 149 : Nat) = 713623846352979940529142984724747568191373312 := by
    norm_num
  have h7 := natAbs_toInt x
  rw [toInt_one] at hupper
  simp only [add, hnan, h1n, hfi, h1i, Bool.or_false, Bool.false_eq_true, if_false, toInt_one]
  by_cases hv : (floor x).toInt + ((2 ^ 149 : Nat) : Int) = 0
  · rw [if_pos hv]
    simp only [lt, hxn, isNaN_signedZero, Bool.not_false, Bool.true_and, decide_eq_true_eq,
      toInt_of_mag_zero _ (mag_signedZero _)]
    omega
  · rw [if_neg hv]
    have hk : ((floor x).toInt + ((2 ^ 149 : Nat) : Int)).natAbs
        = (x.toInt / ((2 ^ 149 : Nat) : Int) + 1).natAbs * 2 ^ 149 := by
      rw [hU] at hfl ⊢
      rw [hUn]
      omega
    have hkb : (x.toInt / ((2 ^ 149 : Nat) : Int) + 1).natAbs ≤ 16777216 := by
      rw [hU]
      rw [hUn] at hsmall
      omega
    rw [hk]
    simp only [lt, hxn, isNaN_roundRat, Bool.not_false, Bool.true_and, decide_eq_true_eq,
      toInt_roundRat_int _ _ hkb]
    rw [hU] at hfl hupper hv ⊢
    by_cases hneg : (floor x).toInt + 713623846352979940529142984724747568191373312 < 0
    · simp only [hneg, decide_True, if_true]
      rw [Nat.cast_mul, hU]
      omega
    · simp only [hneg, decide_False, Bool.false_eq_true, if_false]
      rw [Nat.cast_mul, hU]
      omega

/-- At `2^24` the binary32 sum `floorf x + 1.0f` rounds back to `x`. -/
theorem floor_add_one_two_pow_24 :
    floor (ofBits 0x4B800000) = ofBits 0x4B800000 ∧
    add (floor (ofBits 0x4B800000)) one = ofBits 0x4B800000 := by
  decide

end Float32

/-- The strict comparison is false both ways between equal values (such as `+0`
and `-0`) and as soon as one side is a NaN. -/
theorem Float32.not_lt_of_nan_or_feq (a b : Float32)
    (h : a.isNaN = true ∨ b.isNaN = true ∨ Float32.feq a b = true) :
    ¬ (a < b) ∧ ¬ (b < a) := by
  simp only [Float32.lt_iff, Float32.lt]
  rcases h with h | h | h
  · simp [h]
  · simp [h]
  · simp only [Float32.feq, Bool.and_eq_true, Bool.not_eq_true', decide_eq_true_eq] at h
    obtain ⟨⟨ha, hb⟩, ht⟩ := h
    simp only [ha, hb, Bool.not_false, Bool.true_and, decide_eq_true_eq]
    omega

/-! ## Binary32: the factor of `Normalize` -/

namespace Float32

theorem sign_qNaN : qNaN.sign = false := by decide

theorem sign_signedZero (s : Bool) : (signedZero s).sign = s := by
  cases s <;> decide

/-- A square is never negative: its sign bit is clear (also for the canonical
NaN the model produces). -/
theorem sign_mul_self (x : Float32) : (mul x x).sign = false := by
  simp only [mul, bne_self_eq_false]
  split_ifs
  · exact sign_qNaN
  · exact sign_qNaN
  · exact sign_signedInf _
  · exact sign_roundRat _ _ _

/-- The sum of two values with clear sign bits has a clear sign bit. -/
theorem sign_add_nonneg (a b : Float32) (ha : a.sign = false) (hb : b.sign = false) :
    (add a b).sign = false := by
  simp only [add, ha, hb, Bool.and_self, bne_self_eq_false, Bool.and_false,
    Bool.false_eq_true, if_false]
  split_ifs with h1 h2 h3 h4
  · exact sign_qNaN
  · exact ha
  · exact hb
  · exact sign_signedZero _
  · rw [sign_roundRat]
    have h5 : a.toInt = (a.mag : Int) := by simp [toInt, ha]
    have h6 : b.toInt = (b.mag : Int) := by simp [toInt, hb]
    simp only [decide_eq_false_iff_not]
    omega

theorem sqrtExpSearch_le (n T : Nat) (hT : n < 4 ^ (T + 24)) (fuel t : Nat) (ht : t ≤ T) :
    sqrtExpSearch n fuel t ≤ T := by
  induction fuel generalizing t with
  | zero => exact ht
  | succ m ih =>
    simp only [sqrtExpSearch]
    by_cases htest : n < 4 ^ (t + 24)
    · rw [if_pos htest]
      exact ht
    · rw [if_neg htest]
      have hne : t ≠ T := by
        intro h
        rw [h] at htest
        exact htest hT
      exact ih (t + 1) (by omega)

theorem le_sqrtExpSearch (n fuel t : Nat) : t ≤ sqrtExpSearch n fuel t := by
  induction fuel generalizing t with
  | zero => exact Nat.le_refl _
  | succ m ih =>
    simp only [sqrtExpSearch]
    split_ifs
    · exact Nat.le_refl _
    · exact Nat.le_trans (Nat.le_succ _) (ih (t + 1))

theorem sqrtExpSearch_ge (n T : Nat) (hT : ∀ u, u < T → ¬ n < 4 ^ (u + 24)) (fuel t : Nat)
    (ht : t ≤ T) (hfuel : T - t ≤ fuel) : T ≤ sqrtExpSearch n fuel t := by
  induction fuel generalizing t with
  | zero =>
    simp only [sqrtExpSearch]
    omega
  | succ m ih =>
    by_cases hEq : t = T
    · rw [← hEq]
      exact le_sqrtExpSearch _ _ _
    · have hlt : t < T := by omega
      simp only [sqrtExpSearch]
      rw [if_neg (hT t hlt)]
      exact ih (t + 1) (by omega) (by omega)

theorem isqrtAux_lt (n : Nat) (i r : Nat) : isqrtAux n i r < r + 2 ^ i := by
  induction i generalizing r with
  | zero => simp [isqrtAux]
  | succ k ih =>
    simp only [isqrtAux]
    have hp : 2 ^ (k + 1) = 2 ^ k + 2 ^ k := by rw [Nat.pow_succ]; omega
    have hpos := Nat.two_pow_pos k
    split_ifs
    · have := ih (r + 2 ^ k)
      omega
    · have := ih r
      omega

theorem mag_lt_of_isFinite (x : Float32) (hfin : x.isFinite = true) : x.mag < 2 ^ 277 := by
  obtain ⟨_, hf, _⟩ := bits_decomp x
  simp only [isFinite, decide_eq_true_eq] at hfin
  by_cases he : x.expo = 0
  · simp only [mag, he, if_true]
    have : (8388608 : Nat) ≤ 2 ^ 277 := by norm_num
    omega
  · simp only [mag, he, if_false]
    have h1 : (2 : Nat) ^ (x.expo - 1) ≤ 2 ^ 253 :=
      Nat.pow_le_pow_right (by decide) (by omega)
    have h2 : (8388608 + x.frac) * 2 ^ (x.expo - 1) ≤ (8388608 + x.frac) * 2 ^ 253 :=
      Nat.mul_le_mul_left _ h1
    have h3 : (8388608 + x.frac) * 2 ^ 253 < 16777216 * 2 ^ 253 :=
      Nat.mul_lt_mul_of_pos_right (by omega) (Nat.two_pow_pos 253)
    have h4 : (16777216 : Nat) * 2 ^ 253 = 2 ^ 277 := by norm_num
    omega

theorem mag_ge_of_expo (x : Float32) (e : Nat) (he : e + 1 ≤ x.expo) :
    8388608 * 2 ^ e ≤ x.mag := by
  have hne : x.expo ≠ 0 := by omega
  simp only [mag, hne, if_false]
  have h1 : (2 : Nat) ^ e ≤ 2 ^ (x.expo - 1) := Nat.pow_le_pow_right (by decide) (by omega)
  have h2 : 8388608 * 2 ^ e ≤ 8388608 * 2 ^ (x.expo - 1) := Nat.mul_le_mul_left _ h1
  have h3 : 8388608 * 2 ^ (x.expo - 1) ≤ (8388608 + x.frac) * 2 ^ (x.expo - 1) :=
    Nat.mul_le_mul_right _ (by omega)
  omega

/-- The bit pattern `sqrtf` assembles for a positive finite non-zero argument: the
exponent found by the search and a significand that is the integer root or its
successor. -/
theorem bits_sqrt (x : Float32) (hn : x.isNaN = false) (hm : x.mag ≠ 0) (hs : x.sign = false)
    (hi : x.isInf = false) :
    ∃ r, r ≤ isqrtAux (x.mag * 2 ^ 149 / 4 ^ sqrtExpSearch (x.mag * 2 ^ 149) 254 0) 24 0 + 1 ∧
      (sqrt x).bits.val
        = (sqrtExpSearch (x.mag * 2 ^ 149) 254 0 * 8388608 + r) % 4294967296 := by
  simp only [sqrt, hn, hm, hs, hi, Bool.false_eq_true, if_false, bits_ofBits_mod]
  split_ifs
  · exact ⟨_, Nat.le_refl _, rfl⟩
  · exact ⟨_, Nat.le_succ _, rfl⟩

/-- The square root of a positive finite number is a positive finite number of
exponent field at least 51 (it is at least `2^-75`). -/
theorem sqrt_range (x : Float32) (hfin : x.isFinite = true) (hs : x.sign = false)
    (hm : x.mag ≠ 0) :
    (sqrt x).isFinite = true ∧ (sqrt x).sign = false ∧ 51 ≤ (sqrt x).expo := by
  obtain ⟨hn, hi⟩ := (isFinite_iff x).mp hfin
  have hlt := mag_lt_of_isFinite x hfin
  have hn1 : 2 ^ 149 ≤ x.mag * 2 ^ 149 := Nat.le_mul_of_pos_left _ (by omega)
  have hn2 : x.mag * 2 ^ 149 < 4 ^ (189 + 24) := by
    have h1 : x.mag * 2 ^ 149 < 2 ^ 277 * 2 ^ 149 :=
      Nat.mul_lt_mul_of_pos_right hlt (Nat.two_pow_pos 149)
    have h2 : (2 : Nat) ^ 277 * 2 ^ 149 = 4 ^ (189 + 24) := by norm_num
    omega
  have ht1 := sqrtExpSearch_le _ 189 hn2 254 0 (Nat.zero_le _)
  have ht2 : 51 ≤ sqrtExpSearch (x.mag * 2 ^ 149) 254 0 := by
    apply sqrtExpSearch_ge _ 51 _ 254 0 (Nat.zero_le _) (by decide)
    intro u hu
    have h1 : (4 : Nat) ^ (u + 24) ≤ 4 ^ 74 := Nat.pow_le_pow_right (by decide) (by omega)
    have h2 : (4 : Nat) ^ 74 ≤ 2 ^ 149 := by norm_num
    omega
  have hq := isqrtAux_lt
    (x.mag * 2 ^ 149 / 4 ^ sqrtExpSearch (x.mag * 2 ^ 149) 254 0) 24 0
  obtain ⟨r, hr, hb⟩ := bits_sqrt x hn hm hs hi
  generalize sqrtExpSearch (x.mag * 2 ^ 149) 254 0 = t at ht1 ht2 hq hr hb
  generalize isqrtAux (x.mag * 2 ^ 149 / 4 ^ t) 24 0 = q at hq hr
  have h24 : (2 : Nat) ^ 24 = 16777216 := by norm_num
  simp only [isFinite, sign, expo, decide_eq_true_eq, decide_eq_false_iff_not]
  omega

theorem roundMag_lt (num den : Nat) (h : num < den * 2 ^ (252 + 24)) :
    roundMag num den < 2139095040 := by
  have hle := expSearch_le num den 252 h 254 0 (Nat.zero_le _)
  obtain ⟨htest, _⟩ := expSearch_spec num den 252 h 254 0 (Nat.zero_le _) (by decide)
  simp only [roundMag]
  generalize expSearch num den 254 0 = t at hle htest
  have hq : num / (den * 2 ^ t) < 16777216 := by
    apply Nat.div_lt_of_lt_mul
    rw [Nat.pow_add, ← Nat.mul_assoc] at htest
    exact htest
  split_ifs <;> omega

theorem roundMag_pos (num den : Nat) (hden : 0 < den) (h : den ≤ num) :
    1 ≤ roundMag num den := by
  simp only [roundMag]
  generalize expSearch num den 254 0 = t
  by_cases ht : t = 0
  · subst ht
    have hq : 1 ≤ num / (den * 2 ^ 0) := by
      rw [Nat.pow_zero, Nat.mul_one]
      exact Nat.div_pos h hden
    generalize num / (den * 2 ^ 0) = q at hq
    split_ifs <;> omega
  · generalize num / (den * 2 ^ t) = q
    split_ifs <;> omega

/-- The reciprocal `1.0f / r` of a positive finite `r` of exponent field at least
51 is a positive, finite, non-zero number. -/
theorem one_div_range (r : Float32) (hfin : r.isFinite = true) (hs : r.sign = false)
    (he : 51 ≤ r.expo) :
    (div one r).isFinite = true ∧ (div one r).sign = false ∧ (div one r).mag ≠ 0 := by
  obtain ⟨hn, hi⟩ := (isFinite_iff r).mp hfin
  have h1n : one.isNaN = false := by decide
  have h1i : one.isInf = false := by decide
  have h1s : one.sign = false := by decide
  have h1m : one.mag = 2 ^ 149 := by decide
  have hlow := mag_ge_of_expo r 50 (by omega)
  have hup := mag_lt_of_isFinite r hfin
  have hm0 : r.mag ≠ 0 := by
    have := Nat.two_pow_pos 50
    omega
  have hform : div one r = roundRat false (2 ^ 149 * 2 ^ 149) r.mag := by
    simp only [div, h1n, hn, h1i, hi, hm0, h1s, hs, h1m, Bool.or_false, Bool.false_eq_true,
      if_false, bne_self_eq_false]
  have hb := bits_roundRat false (2 ^ 149 * 2 ^ 149) r.mag
  have hlt : roundMag (2 ^ 149 * 2 ^ 149) r.mag < 2139095040 := by
    apply roundMag_lt
    have h1 : 8388608 * 2 ^ 50 * 2 ^ (252 + 24) ≤ r.mag * 2 ^ (252 + 24) :=
      Nat.mul_le_mul_right _ hlow
    have h2 : (2 : Nat) ^ 149 * 2 ^ 149 < 8388608 * 2 ^ 50 * 2 ^ (252 + 24) := by norm_num
    omega
  have hpos : 1 ≤ roundMag (2 ^ 149 * 2 ^ 149) r.mag := by
    apply roundMag_pos _ _ (by omega)
    have h1 : (2 : Nat) ^ 277 ≤ 2 ^ 149 * 2 ^ 149 := by norm_num
    omega
  rw [hform]
  simp only [signBit, Bool.false_eq_true, if_false, Nat.zero_add] at hb
  refine ⟨?_, sign_roundRat _ _ _, ?_⟩
  · simp only [isFinite, expo, hb, decide_eq_true_eq]
    omega
  · intro hz
    obtain ⟨hez, hfz⟩ := fields_of_mag_zero _ hz
    obtain ⟨hdec, _, _⟩ := bits_decomp (roundRat false (2 ^ 149 * 2 ^ 149) r.mag)
    rw [hez, hfz, hb] at hdec
    omega

end Float32

namespace Float32

theorem isNaN_add_left (a b : Float32) (h : a.isNaN = true) : (add a b).isNaN = true := by
  simp [add, h, isNaN_qNaN]

theorem isNaN_add_right (a b : Float32) (h : b.isNaN = true) : (add a b).isNaN = true := by
  simp [add, h, isNaN_qNaN]

theorem isNaN_mul_self (x : Float32) (h : x.isNaN = true) : (mul x x).isNaN = true := by
  simp [mul, h, isNaN_qNaN]

theorem isFinite_false_of_isNaN (x : Float32) (h : x.isNaN = true) : x.isFinite = false := by
  simp only [isNaN, Bool.and_eq_true, beq_iff_eq] at h
  simp [isFinite, h.1]

end Float32

/-- The accumulation of squares keeps a clear sign bit. -/
theorem sign_foldl_squares (x : ShaderVariable) (l : List Nat) (acc : Float32)
    (h : acc.sign = false) :
    (l.foldl (fun sqrlength i => Float32.add sqrlength
      (Float32.mul (x.fv i) (x.fv i))) acc).sign = false := by
  induction l generalizing acc with
  | nil => exact h
  | cons j rest ih =>
    rw [List.foldl_cons]
    exact ih _ (Float32.sign_add_nonneg _ _ h (Float32.sign_mul_self _))

/-- The accumulation of squares stays a NaN once it is one. -/
theorem isNaN_foldl_squares (x : ShaderVariable) (l : List Nat) (acc : Float32)
    (h : acc.isNaN = true) :
    (l.foldl (fun sqrlength i => Float32.add sqrlength
      (Float32.mul (x.fv i) (x.fv i))) acc).isNaN = true := by
  induction l generalizing acc with
  | nil => exact h
  | cons j rest ih =>
    rw [List.foldl_cons]
    exact ih _ (Float32.isNaN_add_left _ _ h)

/-- A NaN among the accumulated components makes the accumulation a NaN. -/
theorem isNaN_foldl_squares_of_mem (x : ShaderVariable) (l : List Nat) (acc : Float32)
    (c : Nat) (hc : c ∈ l) (h : (x.fv c).isNaN = true) :
    (l.foldl (fun sqrlength i => Float32.add sqrlength
      (Float32.mul (x.fv i) (x.fv i))) acc).isNaN = true := by
  induction l generalizing acc with
  | nil => exact absurd hc (List.not_mem_nil c)
  | cons j rest ih =>
    rw [List.foldl_cons]
    rcases List.mem_cons.mp hc with hj | hrest
    · subst hj
      exact isNaN_foldl_squares x rest _
        (Float32.isNaN_add_right _ _ (Float32.isNaN_mul_self _ h))
    · exact ih _ hrest

theorem sign_sqrLength (x : ShaderVariable) : (sqrLength x).sign = false :=
  sign_foldl_squares x _ _ (by decide)

/-- A finite squared length has no NaN among its components. -/
theorem isNaN_false_of_sqrLength (x : ShaderVariable) (c : Nat) (hc : c < x.columns)
    (hfin : (sqrLength x).isFinite = true) : (x.fv c).isNaN = false := by
  cases h : (x.fv c).isNaN
  · rfl
  · have h1 := isNaN_foldl_squares_of_mem x (List.range x.columns) Float32.zero c
      (List.mem_range.mpr hc) h
    have h2 := Float32.isFinite_false_of_isNaN _ h1
    simp only [sqrLength] at hfin
    rw [hfin] at h2
    exact absurd h2 (by decide)

/-- For a finite non-zero squared length the factor `1.0f / sqrtf(sqrlength)` is a
positive, finite, non-zero number. -/
theorem invLength_range (x : ShaderVariable) (hfin : (sqrLength x).isFinite = true)
    (hnz : (sqrLength x).mag ≠ 0) :
    (invLength x).isFinite = true ∧ (invLength x).sign = false ∧ (invLength x).mag ≠ 0 := by
  obtain ⟨h1, h2, h3⟩ := Float32.sqrt_range _ hfin (sign_sqrLength x) hnz
  exact Float32.one_div_range _ h1 h2 h3

/-! ## The claims -/

/-- C1: each of the fifteen instruction functions, called with an operand-id list
whose length differs from its declared arity, returns the default-constructed
`ShaderVariable`, passes no id to `GetSrc`, and emits exactly one diagnostic that
carries the instruction name, the expected arity and the actual count; called
with the declared number of operands it emits no diagnostic. -/
theorem C1_arity_mismatch_sentinel (powf : Float32 → Float32 → Float32)
    (f : ExtInstImpl) (state : ThreadState) (params : List Id) :
    (params.length ≠ f.arity.2 →
      (f.call powf state params).result = ShaderVariable.default ∧
      (f.call powf state params).reads = [] ∧
      (f.call powf state params).log
        = [{ func := f.arity.1, expected := f.arity.2, actual := params.length }]) ∧
    (params.length = f.arity.2 → (f.call powf state params).log = []) := by
  cases f <;>
    simp only [ExtInstImpl.call, ExtInstImpl.arity, glsl.FAbs, glsl.Floor, glsl.Pow,
      glsl.FMin, glsl.UMin, glsl.SMin, glsl.FMax, glsl.UMax, glsl.SMax, glsl.FClamp,
      glsl.UClamp, glsl.SClamp, glsl.FMix, glsl.Cross, glsl.Normalize] <;>
    constructor <;> intro h <;> simp [h, checkParamsFail]

/-- C1 witness: `FAbs` with 2 operand ids returns the sentinel, reads nothing and
emits the one diagnostic naming FAbs, expected 1, actual 2. -/
theorem C1_arity_mismatch_sentinel_witness :
    ([0, 1] : List Id).length ≠ (ExtInstImpl.FAbs).arity.2 ∧
    (glsl.FAbs stateUMax [0, 1]).result = ShaderVariable.default ∧
    (glsl.FAbs stateUMax [0, 1]).reads = [] ∧
    (glsl.FAbs stateUMax [0, 1]).log = [{ func := "FAbs", expected := 1, actual := 2 }] :=
  ⟨by decide,
    (C1_arity_mismatch_sentinel (fun a _ => a) .FAbs stateUMax [0, 1]).1 (by decide)⟩

/-- C2 (as the code has it): when a component of either operand is a NaN, the
result component of `FMax` and of `FMin` is the first operand's component: the
other operand when the NaN is in `y`, the NaN itself when it is in `x`. -/
theorem C2_nan_operand_yields_first (state : ThreadState) (p q : Id) (c : Nat)
    (hc : c < (state.GetSrc p).columns)
    (hnan : ((state.GetSrc p).fv c).isNaN = true ∨ ((state.GetSrc q).fv c).isNaN = true) :
    (glsl.FMax state [p, q]).result.fv c = (state.GetSrc p).fv c ∧
    (glsl.FMin state [p, q]).result.fv c = (state.GetSrc p).fv c := by
  have hlt1 : ¬ ((state.GetSrc p).fv c < (state.GetSrc q).fv c) := by
    show ¬ (Float32.lt _ _ = true)
    rcases hnan with h | h <;> simp [Float32.lt, h]
  have hlt2 : ¬ ((state.GetSrc q).fv c < (state.GetSrc p).fv c) := by
    show ¬ (Float32.lt _ _ = true)
    rcases hnan with h | h <;> simp [Float32.lt, h]
  rw [glsl.FMax_result, glsl.FMin_result]
  simp only [ShaderVariable.fv] at hlt1 hlt2 ⊢
  simp only [mapLanes, hc, if_true, glsl.GLSLMax, glsl.GLSLMin, ShaderVariable.fv, hlt1, hlt2,
    if_false]
  exact ⟨trivial, trivial⟩

/-- C2 witness: `x = NaN`, `y = 1.0f`; both results are the NaN of `x`. -/
theorem C2_nan_operand_yields_first_witness :
    (glsl.FMax stateNaN [0, 1]).result.fv 0 = (stateNaN.GetSrc 0).fv 0 ∧
    (glsl.FMin stateNaN [0, 1]).result.fv 0 = (stateNaN.GetSrc 0).fv 0 :=
  C2_nan_operand_yields_first stateNaN 0 1 0 (by decide) (Or.inl (by decide))

/-- C2 counterexample: with `x_0 = NaN` and `y_0 = 1.0f` the component of
`FMax(x, y)` is the NaN, which is neither the bit pattern of `y_0` nor `==` to it. -/
theorem C2_counterexample :
    ((stateNaN.GetSrc 0).fv 0).isNaN = true ∧
    (glsl.FMax stateNaN [0, 1]).result.fv 0 ≠ (stateNaN.GetSrc 1).fv 0 ∧
    Float32.feq ((glsl.FMax stateNaN [0, 1]).result.fv 0) ((stateNaN.GetSrc 1).fv 0) = false := by
  decide

/-- C3: for every component `c` below the column count of `x`, the unsigned
component `c` of `UMax(x, y)` is the larger of `x_c` and `y_c` in the unsigned
32-bit order. -/
theorem C3_umax_unsigned (state : ThreadState) (p q : Id) (c : Nat)
    (hc : c < (state.GetSrc p).columns) :
    ((glsl.UMax state [p, q]).result.uv c).val
      = max ((state.GetSrc p).uv c).val ((state.GetSrc q).uv c).val := by
  rw [glsl.UMax_result]
  simp only [mapLanes, ShaderVariable.uv, hc, if_true, glsl.GLSLMax]
  split
  · next h => rw [max_eq_right (Nat.le_of_lt (Fin.lt_def.mp h))]
  · next h => rw [max_eq_left (Nat.le_of_not_lt (fun h2 => h (Fin.lt_def.mpr h2)))]

/-- C3 witness: `UMax` on `(0xFFFFFFFE, 1)` and `(0x00000001, 5)` has components
`0xFFFFFFFE` and `5`. -/
theorem C3_umax_unsigned_witness :
    ((glsl.UMax stateUMax [0, 1]).result.uv 0).val = 0xFFFFFFFE ∧
    ((glsl.UMax stateUMax [0, 1]).result.uv 1).val = 5 :=
  ⟨(C3_umax_unsigned stateUMax 0 1 0 (by decide)).trans (by decide),
   by decide⟩

/-- C4: after `ConfigureGLSLStd450` ran on a freshly constructed dispatcher, both
arrays have length `N = GLSLstd450::Max`, `names[i]` is the display string of
opcode `i` for every `i < N`, `functions[op]` is the implementation named like
the opcode for each of the fifteen opcodes, and every other slot of `functions`
is null.  The enumeration is a parameter whose fifteen ordinals are pairwise
distinct and below `Max`. -/
theorem C4_configure_table (e : GLSLstd450) (ToStr : Nat → String)
    (hinj : Function.Injective e.value) (hrange : ∀ f, e.value f < e.Max) :
    (ConfigureGLSLStd450 e ToStr ExtInstDispatcher.fresh).names.length = e.Max ∧
    (ConfigureGLSLStd450 e ToStr ExtInstDispatcher.fresh).functions.length = e.Max ∧
    (∀ i, i < e.Max →
      (ConfigureGLSLStd450 e ToStr ExtInstDispatcher.fresh).names[i]? = some (ToStr i)) ∧
    (∀ f, (ConfigureGLSLStd450 e ToStr ExtInstDispatcher.fresh).functions[e.value f]?
      = some (some f)) ∧
    (∀ i, i < e.Max → (∀ f, e.value f ≠ i) →
      (ConfigureGLSLStd450 e ToStr ExtInstDispatcher.fresh).functions[i]? = some none) := by
  have hnames :
      ((List.range (resize ExtInstDispatcher.fresh.names e.Max "").length).foldl
        (fun names i => names.set i (ToStr i))
        (resize ExtInstDispatcher.fresh.names e.Max "")).length = e.Max := by
    rw [(fill_names _ _ _).1, length_resize]
  refine ⟨?_, ?_, ?_, ?_, ?_⟩
  · exact hnames
  · rw [functions_eq_foldl, assign_length, length_resize, hnames]
  · intro i hi
    simp only [ConfigureGLSLStd450, EXT, (fill_names _ _ _).2, length_resize, hi, and_self,
      if_true]
  · intro f
    rw [functions_eq_foldl]
    apply assign_member e hinj
    · cases f <;> simp
    · rw [length_resize, hnames]
      exact hrange f
  · intro i hi hno
    rw [functions_eq_foldl, assign_untouched e i _ _ (fun f _ => hno f), hnames]
    simp [resize, ExtInstDispatcher.fresh, List.getElem?_replicate, hi]

/-- C4 witness: the table built over the Khronos ordinals (member count 82). -/
theorem C4_configure_table_witness :
    Function.Injective khronosGLSLstd450.value ∧
    (∀ f, khronosGLSLstd450.value f < khronosGLSLstd450.Max) ∧
    (ConfigureGLSLStd450 khronosGLSLstd450 ordinalString ExtInstDispatcher.fresh).names.length
      = 82 ∧
    (ConfigureGLSLStd450 khronosGLSLstd450 ordinalString ExtInstDispatcher.fresh).functions.length
      = 82 ∧
    (ConfigureGLSLStd450 khronosGLSLstd450 ordinalString ExtInstDispatcher.fresh).functions[68]?
      = some (some .Cross) ∧
    (ConfigureGLSLStd450 khronosGLSLstd450 ordinalString ExtInstDispatcher.fresh).functions[5]?
      = some none :=
  have hinj : Function.Injective khronosGLSLstd450.value := by
    intro a b h
    cases a <;> cases b <;> first | rfl | exact absurd h (by decide)
  have hrange : ∀ f, khronosGLSLstd450.value f < khronosGLSLstd450.Max := by
    intro f
    cases f <;> decide
  have h := C4_configure_table khronosGLSLstd450 ordinalString hinj hrange
  ⟨hinj, hrange, h.1, h.2.1, h.2.2.2.1 .Cross,
    h.2.2.2.2 5 (by decide) (by intro f; cases f <;> decide)⟩

/-- C5: for operands `x`, `y` with exactly 3 columns, `Cross(x, y)` has the float
components `r0 = x1*y2 - y1*x2`, `r1 = x2*y0 - y2*x0`, `r2 = x0*y1 - y0*x1`,
each from the original components of `x` and `y`; name, type, rows, columns and
every lane from index 3 on are those of the first operand, and the shape
assertion holds. -/
theorem C5_cross_components (state : ThreadState) (p q : Id)
    (hx : (state.GetSrc p).columns = 3) (hy : (state.GetSrc q).columns = 3) :
    (glsl.Cross state [p, q]).result.fv 0
      = Float32.sub (Float32.mul ((state.GetSrc p).fv 1) ((state.GetSrc q).fv 2))
          (Float32.mul ((state.GetSrc q).fv 1) ((state.GetSrc p).fv 2)) ∧
    (glsl.Cross state [p, q]).result.fv 1
      = Float32.sub (Float32.mul ((state.GetSrc p).fv 2) ((state.GetSrc q).fv 0))
          (Float32.mul ((state.GetSrc q).fv 2) ((state.GetSrc p).fv 0)) ∧
    (glsl.Cross state [p, q]).result.fv 2
      = Float32.sub (Float32.mul ((state.GetSrc p).fv 0) ((state.GetSrc q).fv 1))
          (Float32.mul ((state.GetSrc q).fv 0) ((state.GetSrc p).fv 1)) ∧
    (glsl.Cross state [p, q]).result.name = (state.GetSrc p).name ∧
    (glsl.Cross state [p, q]).result.type = (state.GetSrc p).type ∧
    (glsl.Cross state [p, q]).result.rows = (state.GetSrc p).rows ∧
    (glsl.Cross state [p, q]).result.columns = (state.GetSrc p).columns ∧
    (∀ i, 3 ≤ i → (glsl.Cross state [p, q]).result.value i = (state.GetSrc p).value i) ∧
    (glsl.Cross state [p, q]).asserts = [] := by
  refine ⟨?_, ?_, ?_, rfl, rfl, rfl, rfl, ?_, ?_⟩
  · simp [glsl.Cross, ShaderVariable.setFv, ShaderVariable.fv]
  · simp [glsl.Cross, ShaderVariable.setFv, ShaderVariable.fv]
  · simp [glsl.Cross, ShaderVariable.setFv, ShaderVariable.fv]
  · intro i hi
    have h0 : i ≠ 0 := by omega
    have h1 : i ≠ 1 := by omega
    have h2 : i ≠ 2 := by omega
    simp [glsl.Cross, ShaderVariable.setFv, Function.update_noteq, h0, h1, h2]
  · simp [glsl.Cross, hx, hy]

/-- C5 witness: `(1, 2, 3) x (4, 5, 6) = (-3, 6, -3)`. -/
theorem C5_cross_components_witness :
    (stateCross.GetSrc 0).columns = 3 ∧ (stateCross.GetSrc 1).columns = 3 ∧
    (glsl.Cross stateCross [0, 1]).result.fv 0 = Float32.ofBits 0xC0400000 ∧
    (glsl.Cross stateCross [0, 1]).result.fv 1 = Float32.ofBits 0x40C00000 ∧
    (glsl.Cross stateCross [0, 1]).result.fv 2 = Float32.ofBits 0xC0400000 ∧
    (glsl.Cross stateCross [0, 1]).result.columns = 3 ∧
    (glsl.Cross stateCross [0, 1]).asserts = [] :=
  have h := C5_cross_components stateCross 0 1 (by decide) (by decide)
  ⟨by decide, by decide, h.1.trans (by decide), h.2.1.trans (by decide),
    h.2.2.1.trans (by decide), h.2.2.2.2.2.2.1.trans (by decide), h.2.2.2.2.2.2.2.2⟩

/-- C6 (as the code has it): for all operands `x`, `y` (3-component ones in
particular) and every component `c` in `{0, 1, 2}` whose value `Cross(x, y)_c` is
not a NaN, `Cross(x, y)_c == -Cross(y, x)_c`. -/
theorem C6_cross_anticommutative (state : ThreadState) (p q : Id) (c : Nat) (hc : c < 3)
    (hnan : ((glsl.Cross state [p, q]).result.fv c).isNaN = false) :
    Float32.feq ((glsl.Cross state [p, q]).result.fv c)
      (Float32.neg ((glsl.Cross state [q, p]).result.fv c)) = true := by
  have h1 := cross_formula state p q
  have h2 := cross_formula state q p
  have hcases : c = 0 ∨ c = 1 ∨ c = 2 := by omega
  rcases hcases with rfl | rfl | rfl
  · rw [h1.1] at hnan ⊢
    rw [h2.1]
    exact Float32.sub_antisymm _ _ hnan
  · rw [h1.2.1] at hnan ⊢
    rw [h2.2.1]
    exact Float32.sub_antisymm _ _ hnan
  · rw [h1.2.2] at hnan ⊢
    rw [h2.2.2]
    exact Float32.sub_antisymm _ _ hnan

/-- C6 witness: `(1, 2, 3)` and `(4, 5, 6)`, component 0: `-3 == -(3)`. -/
theorem C6_cross_anticommutative_witness :
    (stateCross.GetSrc 0).columns = 3 ∧ (stateCross.GetSrc 1).columns = 3 ∧
    ((glsl.Cross stateCross [0, 1]).result.fv 0).isNaN = false ∧
    Float32.feq ((glsl.Cross stateCross [0, 1]).result.fv 0)
      (Float32.neg ((glsl.Cross stateCross [1, 0]).result.fv 0)) = true :=
  ⟨by decide, by decide, by decide,
    C6_cross_anticommutative stateCross 0 1 0 (by decide) (by decide)⟩

/-- C6 counterexample: for the finite 3-vectors `x = y = (0, 2^100, 2^100)` both
products of component 0 overflow to `+inf`, their difference is a NaN, and
`Cross(x, y)_0 == -Cross(y, x)_0` is false. -/
theorem C6_counterexample :
    (stateCrossBig.GetSrc 0).columns = 3 ∧ (stateCrossBig.GetSrc 1).columns = 3 ∧
    ((stateCrossBig.GetSrc 0).fv 1).isFinite = true ∧
    ((stateCrossBig.GetSrc 0).fv 2).isFinite = true ∧
    ((glsl.Cross stateCrossBig [0, 1]).result.fv 0).isNaN = true ∧
    Float32.feq ((glsl.Cross stateCrossBig [0, 1]).result.fv 0)
      (Float32.neg ((glsl.Cross stateCrossBig [1, 0]).result.fv 0)) = false := by
  decide

/-- C7: with `n = x.columns`, every component `c < n` of `Normalize(x)` is the
original `x_c` times one and the same factor `1 / sqrt (sum over i < n of
x_i * x_i)`; the sum runs over exactly the first `n` original components, in
index order from `0.0f`. -/
theorem C7_normalize_common_factor (state : ThreadState) (p : Id) (c : Nat)
    (hc : c < (state.GetSrc p).columns) :
    (glsl.Normalize state [p]).result.fv c
      = Float32.mul ((state.GetSrc p).fv c)
          (Float32.div Float32.one (Float32.sqrt
            ((List.range (state.GetSrc p).columns).foldl
              (fun sqrlength i => Float32.add sqrlength
                (Float32.mul ((state.GetSrc p).fv i) ((state.GetSrc p).fv i)))
              Float32.zero))) := by
  rw [glsl.Normalize_result]
  simp only [mapLanes, ShaderVariable.fv, hc, if_true]

/-- C7 witness: `Normalize (3, 4)`; the factor is `1 / sqrt 25 = 0.2f` and the
result is `(0.6f, 0.8f)`. -/
theorem C7_normalize_common_factor_witness :
    (glsl.Normalize stateNormalize [0]).result.fv 0 = Float32.ofBits 0x3F19999A ∧
    (glsl.Normalize stateNormalize [0]).result.fv 1 = Float32.ofBits 0x3F4CCCCD ∧
    Float32.div Float32.one (Float32.sqrt
      ((List.range 2).foldl
        (fun sqrlength i => Float32.add sqrlength
          (Float32.mul ((stateNormalize.GetSrc 0).fv i) ((stateNormalize.GetSrc 0).fv i)))
        Float32.zero)) = Float32.ofBits 0x3E4CCCCD :=
  ⟨(C7_normalize_common_factor stateNormalize 0 0 (by decide)).trans (by decide),
    (C7_normalize_common_factor stateNormalize 0 1 (by decide)).trans (by decide),
    by decide⟩

/-- C8: for every component `c < x.columns` with `minVal_c <= maxVal_c` in the
active order, `UClamp` (unsigned order) and `SClamp` (two's-complement order)
return `min (max x_c minVal_c) maxVal_c`: `minVal_c` when `x_c` is below it,
`maxVal_c` when `x_c` is above it, `x_c` otherwise; the result lies in
`[minVal_c, maxVal_c]`. -/
theorem C8_integer_clamp (state : ThreadState) (p q r : Id) (c : Nat)
    (hc : c < (state.GetSrc p).columns) :
    (((state.GetSrc q).uv c).val ≤ ((state.GetSrc r).uv c).val →
      ((glsl.UClamp state [p, q, r]).result.uv c).val
        = min (max ((state.GetSrc p).uv c).val ((state.GetSrc q).uv c).val)
            ((state.GetSrc r).uv c).val ∧
      (((state.GetSrc p).uv c).val < ((state.GetSrc q).uv c).val →
        (glsl.UClamp state [p, q, r]).result.uv c = (state.GetSrc q).uv c) ∧
      (((state.GetSrc r).uv c).val < ((state.GetSrc p).uv c).val →
        (glsl.UClamp state [p, q, r]).result.uv c = (state.GetSrc r).uv c) ∧
      (((state.GetSrc q).uv c).val ≤ ((state.GetSrc p).uv c).val →
        ((state.GetSrc p).uv c).val ≤ ((state.GetSrc r).uv c).val →
        (glsl.UClamp state [p, q, r]).result.uv c = (state.GetSrc p).uv c) ∧
      ((state.GetSrc q).uv c).val ≤ ((glsl.UClamp state [p, q, r]).result.uv c).val ∧
      ((glsl.UClamp state [p, q, r]).result.uv c).val ≤ ((state.GetSrc r).uv c).val) ∧
    ((state.GetSrc q).iv c ≤ (state.GetSrc r).iv c →
      (glsl.SClamp state [p, q, r]).result.iv c
        = min (max ((state.GetSrc p).iv c) ((state.GetSrc q).iv c)) ((state.GetSrc r).iv c) ∧
      ((state.GetSrc p).iv c < (state.GetSrc q).iv c →
        (glsl.SClamp state [p, q, r]).result.iv c = (state.GetSrc q).iv c) ∧
      ((state.GetSrc r).iv c < (state.GetSrc p).iv c →
        (glsl.SClamp state [p, q, r]).result.iv c = (state.GetSrc r).iv c) ∧
      ((state.GetSrc q).iv c ≤ (state.GetSrc p).iv c →
        (state.GetSrc p).iv c ≤ (state.GetSrc r).iv c →
        (glsl.SClamp state [p, q, r]).result.iv c = (state.GetSrc p).iv c) ∧
      (state.GetSrc q).iv c ≤ (glsl.SClamp state [p, q, r]).result.iv c ∧
      (glsl.SClamp state [p, q, r]).result.iv c ≤ (state.GetSrc r).iv c) := by
  constructor
  · intro hle
    rw [glsl.UClamp_result]
    simp only [mapLanes, ShaderVariable.uv, hc, if_true, glsl.GLSLMin, glsl.GLSLMax,
      Fin.lt_def] at hle ⊢
    split_ifs <;> refine ⟨?_, ?_, ?_, ?_, ?_, ?_⟩ <;> first | omega | (intros; rfl)
  · intro hle
    rw [glsl.SClamp_result]
    simp only [mapLanes, ShaderVariable.iv, hc, if_true, glsl.sclamp_lane] at hle ⊢
    simp only [glsl.GLSLMin, glsl.GLSLMax]
    split_ifs <;> refine ⟨?_, ?_, ?_, ?_, ?_, ?_⟩ <;> omega

/-- C8 witness: unsigned `x = (7, 0xFFFFFFF0)` clamped to `[10, 20]` and
`[3, 0x80000000]` gives `(10, 0x80000000)`; signed `-16` clamped to `[-5, 3]`
gives `-5`. -/
theorem C8_integer_clamp_witness :
    ((glsl.UClamp stateClamp [0, 1, 2]).result.uv 0).val = 10 ∧
    ((glsl.UClamp stateClamp [0, 1, 2]).result.uv 1).val = 0x80000000 ∧
    (glsl.SClamp stateSClamp [0, 1, 2]).result.iv 0 = -5 :=
  ⟨(((C8_integer_clamp stateClamp 0 1 2 0 (by decide)).1 (by decide)).1).trans (by decide),
    (((C8_integer_clamp stateClamp 0 1 2 1 (by decide)).1 (by decide)).1).trans (by decide),
    (((C8_integer_clamp stateSClamp 0 1 2 0 (by decide)).2 (by decide)).1).trans (by decide)⟩

/-- C9: for every component `c < x.columns` with `lo_c <= hi_c` and `x_c` finite,
`lo_c <= FClamp(x, lo, hi)_c <= hi_c` in the float order. -/
theorem C9_fclamp_in_range (state : ThreadState) (p q r : Id) (c : Nat)
    (hc : c < (state.GetSrc p).columns)
    (hle : Float32.le ((state.GetSrc q).fv c) ((state.GetSrc r).fv c) = true)
    (hfin : ((state.GetSrc p).fv c).isFinite = true) :
    Float32.le ((state.GetSrc q).fv c) ((glsl.FClamp state [p, q, r]).result.fv c) = true ∧
    Float32.le ((glsl.FClamp state [p, q, r]).result.fv c) ((state.GetSrc r).fv c) = true := by
  obtain ⟨hlo, hhi, hord⟩ := Float32.not_isNaN_of_le _ _ hle
  have hx := Float32.isNaN_false_of_isFinite _ hfin
  rw [glsl.FClamp_result]
  simp only [mapLanes, ShaderVariable.fv, hc, if_true, glsl.GLSLMin, glsl.GLSLMax,
    Float32.lt_iff] at hlo hhi hord hx ⊢
  by_cases h1 : Float32.lt ⟨(state.GetSrc p).value c⟩ ⟨(state.GetSrc q).value c⟩ = true
  · simp only [h1, if_true]
    have h2 : ¬ (Float32.lt ⟨(state.GetSrc r).value c⟩ ⟨(state.GetSrc q).value c⟩ = true) := by
      simp only [Float32.lt, hlo, hhi, Bool.not_false, Bool.true_and, decide_eq_true_eq]
      omega
    simp only [h2, if_false, Bool.false_eq_true]
    exact ⟨by simp [Float32.le, hlo], hle⟩
  · simp only [h1, if_false, Bool.false_eq_true]
    have h1' : (Float32.mk ((state.GetSrc q).value c)).toInt
        ≤ (Float32.mk ((state.GetSrc p).value c)).toInt := by
      simp only [Float32.lt, hlo, hx, Bool.not_false, Bool.true_and, decide_eq_true_eq] at h1
      omega
    by_cases h2 : Float32.lt ⟨(state.GetSrc r).value c⟩ ⟨(state.GetSrc p).value c⟩ = true
    · simp only [h2, if_true]
      exact ⟨hle, by simp [Float32.le, hhi]⟩
    · simp only [h2, if_false, Bool.false_eq_true]
      simp only [Float32.lt, hhi, hx, Bool.not_false, Bool.true_and, decide_eq_true_eq] at h2
      constructor
      · simp only [Float32.le, hlo, hx, Bool.not_false, Bool.true_and, decide_eq_true_eq]
        exact h1'
      · simp only [Float32.le, hhi, hx, Bool.not_false, Bool.true_and, decide_eq_true_eq]
        omega

/-- C9 witness: `x = 5.0f` clamped to `[1.0f, 2.0f]` is `2.0f`. -/
theorem C9_fclamp_in_range_witness :
    Float32.le ((stateFClamp.GetSrc 1).fv 0) ((stateFClamp.GetSrc 2).fv 0) = true ∧
    ((stateFClamp.GetSrc 0).fv 0).isFinite = true ∧
    (glsl.FClamp stateFClamp [0, 1, 2]).result.fv 0 = Float32.ofBits 0x40000000 ∧
    Float32.le ((stateFClamp.GetSrc 1).fv 0)
      ((glsl.FClamp stateFClamp [0, 1, 2]).result.fv 0) = true ∧
    Float32.le ((glsl.FClamp stateFClamp [0, 1, 2]).result.fv 0)
      ((stateFClamp.GetSrc 2).fv 0) = true :=
  ⟨by decide, by decide, by decide,
    C9_fclamp_in_range stateFClamp 0 1 2 0 (by decide) (by decide) (by decide)⟩

/-- C10 (as the code has it): for every component `c < x.columns`, `FMix` computes
`x_c * (1 - a_c) + y_c * a_c`; when `a_c == 0`, `x_c` is not a NaN and `y_c` is
finite, `FMix(x, y, a)_c == x_c`; when `a_c == 1`, `y_c` is not a NaN and `x_c` is
finite, `FMix(x, y, a)_c == y_c`. -/
theorem C10_fmix_endpoints (state : ThreadState) (p q r : Id) (c : Nat)
    (hc : c < (state.GetSrc p).columns) :
    (glsl.FMix state [p, q, r]).result.fv c
      = Float32.add
          (Float32.mul ((state.GetSrc p).fv c)
            (Float32.sub Float32.one ((state.GetSrc r).fv c)))
          (Float32.mul ((state.GetSrc q).fv c) ((state.GetSrc r).fv c)) ∧
    (Float32.feq ((state.GetSrc r).fv c) Float32.zero = true →
      ((state.GetSrc p).fv c).isNaN = false → ((state.GetSrc q).fv c).isFinite = true →
      Float32.feq ((glsl.FMix state [p, q, r]).result.fv c) ((state.GetSrc p).fv c) = true) ∧
    (Float32.feq ((state.GetSrc r).fv c) Float32.one = true →
      ((state.GetSrc q).fv c).isNaN = false → ((state.GetSrc p).fv c).isFinite = true →
      Float32.feq ((glsl.FMix state [p, q, r]).result.fv c) ((state.GetSrc q).fv c) = true) := by
  have hform : (glsl.FMix state [p, q, r]).result.fv c
      = Float32.add
          (Float32.mul ((state.GetSrc p).fv c)
            (Float32.sub Float32.one ((state.GetSrc r).fv c)))
          (Float32.mul ((state.GetSrc q).fv c) ((state.GetSrc r).fv c)) := by
    rw [glsl.FMix_result]
    simp only [mapLanes, ShaderVariable.fv, hc, if_true]
  refine ⟨hform, ?_, ?_⟩
  · intro ha hx hy
    obtain ⟨hmag, _⟩ := Float32.mag_zero_of_feq_zero _ ha
    obtain ⟨hm0, hmn⟩ := Float32.mag_mul_zero_right _ _ hy hmag
    rw [hform, Float32.one_sub_zero _ hmag, Float32.mul_one _ hx]
    exact Float32.add_zero_right _ _ hx hm0 hmn
  · intro ha hy hx
    have hone := Float32.eq_of_feq _ _ ha Float32.mag_one_ne_zero
    rw [hform, hone, Float32.one_sub_one, Float32.mul_one _ hy]
    obtain ⟨hm0, hmn⟩ := Float32.mag_mul_zero_right _ _ hx Float32.mag_zero_eq
    exact Float32.add_zero_left _ _ hy hm0 hmn

/-- C10 witness: `x = (2, 2)`, `y = (3, 3)`, `a = (0, 1)` mixes to `(2, 3)`. -/
theorem C10_fmix_endpoints_witness :
    (glsl.FMix stateMix [0, 1, 2]).result.fv 0 = Float32.ofBits 0x40000000 ∧
    (glsl.FMix stateMix [0, 1, 2]).result.fv 1 = Float32.ofBits 0x40400000 ∧
    Float32.feq ((glsl.FMix stateMix [0, 1, 2]).result.fv 0) ((stateMix.GetSrc 0).fv 0) = true ∧
    Float32.feq ((glsl.FMix stateMix [0, 1, 2]).result.fv 1) ((stateMix.GetSrc 1).fv 1) = true :=
  ⟨by decide, by decide,
    (C10_fmix_endpoints stateMix 0 1 2 0 (by decide)).2.1 (by decide) (by decide) (by decide),
    (C10_fmix_endpoints stateMix 0 1 2 1 (by decide)).2.2 (by decide) (by decide) (by decide)⟩

/-- C10 counterexample: with `a_0 = 0`, `x_0 = 1.0f`, `y_0 = +inf` the product
`y_0 * a_0` is a NaN and so is the mix, which is not `== x_0`; with `a_1 = 1`,
`x_1 = +inf`, `y_1 = 1.0f` the product `x_1 * (1 - a_1)` is a NaN and the mix is
not `== y_1`. -/
theorem C10_counterexample :
    (stateMixInf.GetSrc 2).fv 0 = Float32.zero ∧
    Float32.feq ((glsl.FMix stateMixInf [0, 1, 2]).result.fv 0)
      ((stateMixInf.GetSrc 0).fv 0) = false ∧
    (stateMixInf.GetSrc 2).fv 1 = Float32.one ∧
    Float32.feq ((glsl.FMix stateMixInf [0, 1, 2]).result.fv 1)
      ((stateMixInf.GetSrc 1).fv 1) = false := by
  decide

/-- C11: `FMax` is commutative on numbers: for every component `c` below both
column counts in which neither `x_c` nor `y_c` is a NaN,
`FMax(x, y)_c == FMax(y, x)_c`; so the equality can fail only at a NaN. -/
theorem C11_fmax_commutative (state : ThreadState) (p q : Id) (c : Nat)
    (hcx : c < (state.GetSrc p).columns) (hcy : c < (state.GetSrc q).columns)
    (hx : ((state.GetSrc p).fv c).isNaN = false) (hy : ((state.GetSrc q).fv c).isNaN = false) :
    Float32.feq ((glsl.FMax state [p, q]).result.fv c)
      ((glsl.FMax state [q, p]).result.fv c) = true := by
  rw [glsl.FMax_result, glsl.FMax_result]
  simp only [mapLanes, ShaderVariable.fv, hcx, hcy, if_true, glsl.GLSLMax, Float32.lt_iff]
    at hx hy ⊢
  by_cases h1 : Float32.lt ⟨(state.GetSrc p).value c⟩ ⟨(state.GetSrc q).value c⟩ = true
  · have h2 : ¬ (Float32.lt ⟨(state.GetSrc q).value c⟩ ⟨(state.GetSrc p).value c⟩ = true) := by
      simp only [Float32.lt, hx, hy, Bool.not_false, Bool.true_and, decide_eq_true_eq] at h1 ⊢
      omega
    simp only [h1, h2, if_true, if_false, Bool.false_eq_true]
    exact Float32.feq_self _ hy
  · by_cases h2 : Float32.lt ⟨(state.GetSrc q).value c⟩ ⟨(state.GetSrc p).value c⟩ = true
    · simp only [h1, h2, if_true, if_false, Bool.false_eq_true]
      exact Float32.feq_self _ hx
    · simp only [h1, h2, if_false, Bool.false_eq_true]
      apply Float32.feq_of_toInt _ _ hx hy
      simp only [Float32.lt, hx, hy, Bool.not_false, Bool.true_and, decide_eq_true_eq] at h1 h2
      omega

/-- C11 witness: on `+0.0f` and `-0.0f` the two orders return different zeros,
which compare `==`. -/
theorem C11_fmax_commutative_witness :
    (glsl.FMax stateZeros [0, 1]).result.fv 0 = Float32.ofBits 0 ∧
    (glsl.FMax stateZeros [1, 0]).result.fv 0 = Float32.ofBits 0x80000000 ∧
    Float32.feq ((glsl.FMax stateZeros [0, 1]).result.fv 0)
      ((glsl.FMax stateZeros [1, 0]).result.fv 0) = true :=
  ⟨by decide, by decide,
    C11_fmax_commutative stateZeros 0 1 0 (by decide) (by decide) (by decide) (by decide)⟩

/-- C12: for every component `c < x.columns`, `SMax` returns the larger and `SMin`
the smaller of `x_c` and `y_c` in the two's-complement signed order
(`SMax_c = x_c < y_c ? y_c : x_c`, `SMin_c = y_c < x_c ? y_c : x_c` on the signed
view), and `UMin` returns the smaller in the unsigned order. -/
theorem C12_signed_minmax_umin (state : ThreadState) (p q : Id) (c : Nat)
    (hc : c < (state.GetSrc p).columns) :
    (glsl.SMax state [p, q]).result.iv c
      = (if (state.GetSrc p).iv c < (state.GetSrc q).iv c then (state.GetSrc q).iv c
          else (state.GetSrc p).iv c) ∧
    (glsl.SMax state [p, q]).result.iv c = max ((state.GetSrc p).iv c) ((state.GetSrc q).iv c) ∧
    (glsl.SMin state [p, q]).result.iv c
      = (if (state.GetSrc q).iv c < (state.GetSrc p).iv c then (state.GetSrc q).iv c
          else (state.GetSrc p).iv c) ∧
    (glsl.SMin state [p, q]).result.iv c = min ((state.GetSrc p).iv c) ((state.GetSrc q).iv c) ∧
    ((glsl.UMin state [p, q]).result.uv c).val
      = min ((state.GetSrc p).uv c).val ((state.GetSrc q).uv c).val := by
  rw [glsl.SMax_result, glsl.SMin_result, glsl.UMin_result]
  simp only [mapLanes, ShaderVariable.iv, ShaderVariable.uv, hc, if_true, glsl.smax_lane,
    glsl.smin_lane]
  refine ⟨?_, ?_, ?_, ?_, ?_⟩
  · split_ifs <;> rfl
  · rw [max_def]
    split_ifs <;> omega
  · split_ifs <;> rfl
  · rw [min_def]
    split_ifs <;> omega
  · simp only [glsl.GLSLMin, Fin.lt_def]
    split_ifs <;> omega

/-- C12 witness: on the bit patterns `(0xFFFFFFFE, 1)` and `(0x00000001, 5)`,
`SMax` yields `(0x00000001, 5)` where `UMax` yields `(0xFFFFFFFE, 5)`; `SMin`
yields `(0xFFFFFFFE, 1)` and `UMin` yields `(0x00000001, 1)`. -/
theorem C12_signed_minmax_umin_witness :
    (glsl.SMax stateUMax [0, 1]).result.iv 0 = 1 ∧
    (glsl.SMax stateUMax [0, 1]).result.uv 0 = Word.ofNat 0x00000001 ∧
    (glsl.SMax stateUMax [0, 1]).result.uv 1 = Word.ofNat 5 ∧
    (glsl.UMax stateUMax [0, 1]).result.uv 0 = Word.ofNat 0xFFFFFFFE ∧
    (glsl.SMin stateUMax [0, 1]).result.uv 0 = Word.ofNat 0xFFFFFFFE ∧
    (glsl.SMin stateUMax [0, 1]).result.uv 1 = Word.ofNat 1 ∧
    (glsl.UMin stateUMax [0, 1]).result.uv 0 = Word.ofNat 0x00000001 ∧
    (glsl.UMin stateUMax [0, 1]).result.uv 1 = Word.ofNat 1 :=
  ⟨((C12_signed_minmax_umin stateUMax 0 1 0 (by decide)).1).trans (by decide),
    by decide, by decide, by decide, by decide, by decide, by decide, by decide⟩

/-- C13 (as the code has it): for every component `c < x.columns`, `FAbs(x)_c`
has the bit pattern of `x_c` or of `-x_c`; when `x_c` is not a NaN,
`FAbs(x)_c >= 0` and `FAbs(x)_c == x_c` or `FAbs(x)_c == -x_c`. -/
theorem C13_fabs_nonneg (state : ThreadState) (p : Id) (c : Nat)
    (hc : c < (state.GetSrc p).columns) :
    ((glsl.FAbs state [p]).result.fv c = (state.GetSrc p).fv c ∨
      (glsl.FAbs state [p]).result.fv c = Float32.neg ((state.GetSrc p).fv c)) ∧
    (((state.GetSrc p).fv c).isNaN = false →
      Float32.le Float32.zero ((glsl.FAbs state [p]).result.fv c) = true ∧
      (Float32.feq ((glsl.FAbs state [p]).result.fv c) ((state.GetSrc p).fv c) = true ∨
        Float32.feq ((glsl.FAbs state [p]).result.fv c)
          (Float32.neg ((state.GetSrc p).fv c)) = true)) := by
  have hform : (glsl.FAbs state [p]).result.fv c = Float32.abs ((state.GetSrc p).fv c) := by
    rw [glsl.FAbs_result]
    simp only [mapLanes, ShaderVariable.fv, hc, if_true]
  rw [hform]
  refine ⟨Float32.abs_eq_or_neg _, ?_⟩
  intro hx
  refine ⟨Float32.zero_le_abs _ hx, ?_⟩
  rcases Float32.abs_eq_or_neg ((state.GetSrc p).fv c) with h | h
  · left
    rw [h]
    exact Float32.feq_self _ hx
  · right
    rw [h]
    exact Float32.feq_self _ (by rw [Float32.isNaN_neg]; exact hx)

/-- C13 witness: `FAbs(-2.5f) = 2.5f`, which is `>= 0` and `== -(-2.5f)`. -/
theorem C13_fabs_nonneg_witness :
    (glsl.FAbs stateNegative [0]).result.fv 0 = Float32.ofBits 0x40200000 ∧
    Float32.le Float32.zero ((glsl.FAbs stateNegative [0]).result.fv 0) = true :=
  ⟨by decide, ((C13_fabs_nonneg stateNegative 0 0 (by decide)).2 (by decide)).1⟩

/-- C13 counterexample: for the NaN `x_0 = 0x7FC00000`, `FAbs(x)_0` is that NaN;
`FAbs(x)_0 >= 0` is false, and `FAbs(x)_0` is `==` neither to `x_0` nor to `-x_0`. -/
theorem C13_counterexample :
    (glsl.FAbs stateNaN [0]).result.fv 0 = Float32.ofBits 0x7FC00000 ∧
    Float32.le Float32.zero ((glsl.FAbs stateNaN [0]).result.fv 0) = false ∧
    Float32.feq ((glsl.FAbs stateNaN [0]).result.fv 0) ((stateNaN.GetSrc 0).fv 0) = false ∧
    Float32.feq ((glsl.FAbs stateNaN [0]).result.fv 0)
      (Float32.neg ((stateNaN.GetSrc 0).fv 0)) = false := by
  decide

/-- C14: for every finite component `x_c`, `c < x.columns`:
`Floor(x)_c <= x_c < Floor(x)_c + 1`, the sum taken in exact arithmetic (values
in units of `2^-149`, where one is `one.toInt`).  Evaluated in binary32 the upper
bound `x_c < Floor(x)_c + 1.0f` also holds for every `|x_c| < 2^24`. -/
theorem C14_floor_bounds (state : ThreadState) (p : Id) (c : Nat)
    (hc : c < (state.GetSrc p).columns) (hfin : ((state.GetSrc p).fv c).isFinite = true) :
    Float32.le ((glsl.Floor state [p]).result.fv c) ((state.GetSrc p).fv c) = true ∧
    ((glsl.Floor state [p]).result.fv c).toInt ≤ ((state.GetSrc p).fv c).toInt ∧
    ((state.GetSrc p).fv c).toInt
      < ((glsl.Floor state [p]).result.fv c).toInt + Float32.one.toInt ∧
    (((state.GetSrc p).fv c).mag < 16777216 * 2 ^ 149 →
      Float32.lt ((state.GetSrc p).fv c)
        (Float32.add ((glsl.Floor state [p]).result.fv c) Float32.one) = true) := by
  have hform : (glsl.Floor state [p]).result.fv c = Float32.floor ((state.GetSrc p).fv c) := by
    rw [glsl.Floor_result]
    simp only [mapLanes, ShaderVariable.fv, hc, if_true]
  rw [hform]
  obtain ⟨h1, h2, h3⟩ := Float32.floor_bounds _ hfin
  obtain ⟨hxn, _⟩ := (Float32.isFinite_iff _).mp hfin
  obtain ⟨hfn, _⟩ := (Float32.isFinite_iff _).mp h3
  refine ⟨?_, h1, h2, fun hsmall => Float32.lt_floor_add_one _ hfin hsmall⟩
  simp only [Float32.le, hxn, hfn, Bool.not_false, Bool.true_and, decide_eq_true_eq]
  exact h1

/-- C14 witness: `Floor(-2.5f) = -3.0f`, and `-3 <= -2.5 < -3 + 1`. -/
theorem C14_floor_bounds_witness :
    ((stateNegative.GetSrc 0).fv 0).isFinite = true ∧
    (glsl.Floor stateNegative [0]).result.fv 0 = Float32.ofBits 0xC0400000 ∧
    Float32.le ((glsl.Floor stateNegative [0]).result.fv 0)
      ((stateNegative.GetSrc 0).fv 0) = true ∧
    Float32.lt ((stateNegative.GetSrc 0).fv 0)
      (Float32.add ((glsl.Floor stateNegative [0]).result.fv 0) Float32.one) = true :=
  ⟨by decide, by decide,
    (C14_floor_bounds stateNegative 0 0 (by decide) (by decide)).1,
    (C14_floor_bounds stateNegative 0 0 (by decide) (by decide)).2.2.2 (by decide)⟩

/-- C15 (as the code has it): when every operand of the call has at least as
many columns as the instruction has computed lanes (the columns of the first
operand; 3 for `Cross`), changing operand components at indices at or beyond
the owning operand's columns changes no lane of the result below the result's
columns. -/
theorem C15_no_read_past_columns (powf : Float32 → Float32 → Float32) (f : ExtInstImpl)
    (state state2 : ThreadState) (params : List Id)
    (hsame : ∀ id ∈ params, sameBelowColumns (state.GetSrc id) (state2.GetSrc id))
    (hcols : ∀ id ∈ params,
      computedLanes f (state.GetSrc (params.getD 0 0)) ≤ (state.GetSrc id).columns)
    (c : Nat) (hc : c < (f.call powf state params).result.columns) :
    (f.call powf state2 params).result.value c = (f.call powf state params).result.value c := by
  rcases params with _ | ⟨a, _ | ⟨b, _ | ⟨d, _ | ⟨e, rest⟩⟩⟩⟩
  · cases f <;> rfl
  · have ha := hsame a (by simp)
    obtain ⟨_, _, _, hca, hva⟩ := ha
    cases f
    case FAbs =>
      simp only [ExtInstImpl.call, glsl.FAbs_result, mapLanes] at hc ⊢
      simp only [hca, hc, if_true, hva c hc]
    case Floor =>
      simp only [ExtInstImpl.call, glsl.Floor_result, mapLanes] at hc ⊢
      simp only [hca, hc, if_true, hva c hc]
    case Normalize =>
      simp only [ExtInstImpl.call, glsl.Normalize_result, mapLanes] at hc ⊢
      have hfold :
          (List.range (state.GetSrc a).columns).foldl
            (fun sqrlength c => Float32.add sqrlength
              (Float32.mul ((state2.GetSrc a).fv c) ((state2.GetSrc a).fv c))) Float32.zero
          = (List.range (state.GetSrc a).columns).foldl
            (fun sqrlength c => Float32.add sqrlength
              (Float32.mul ((state.GetSrc a).fv c) ((state.GetSrc a).fv c))) Float32.zero := by
        apply List.foldl_ext
        intro s i hi
        rw [fv_congr _ _ i (hva i (List.mem_range.mp hi))]
      simp only [hca, hc, if_true, hva c hc, hfold]
    all_goals rfl
  · obtain ⟨_, _, _, hca, hva⟩ := hsame a (by simp)
    obtain ⟨_, _, _, _, hvb⟩ := hsame b (by simp)
    have hcb := hcols b (by simp)
    have hcx := hcols a (by simp)
    simp only [List.getD_cons_zero] at hcb hcx
    cases f
    case Cross =>
      simp only [computedLanes] at hcb hcx
      have hc2 : c < (state.GetSrc a).columns := hc
      have ex0 := fv_congr _ _ 0 (hva 0 (by omega))
      have ex1 := fv_congr _ _ 1 (hva 1 (by omega))
      have ex2 := fv_congr _ _ 2 (hva 2 (by omega))
      have ey0 := fv_congr _ _ 0 (hvb 0 (by omega))
      have ey1 := fv_congr _ _ 1 (hvb 1 (by omega))
      have ey2 := fv_congr _ _ 2 (hvb 2 (by omega))
      simp only [ExtInstImpl.call, glsl.Cross, ShaderVariable.setFv, List.length_cons,
        List.length_nil, ne_eq, not_true_eq_false, if_false, List.getD_cons_zero,
        List.getD_cons_succ, ex0, ex1, ex2, ey0, ey1, ey2, Function.update]
      split_ifs <;> first | rfl | exact hva c hc2
    case Pow =>
      simp only [ExtInstImpl.call, glsl.Pow_result, mapLanes, computedLanes] at hc hcb ⊢
      simp only [hca, hc, if_true, hva c hc, fv_congr _ _ c (hvb c (by omega))]
    case FMin =>
      simp only [ExtInstImpl.call, glsl.FMin_result, mapLanes, computedLanes] at hc hcb ⊢
      simp only [hca, hc, if_true, hva c hc, fv_congr _ _ c (hvb c (by omega))]
    case FMax =>
      simp only [ExtInstImpl.call, glsl.FMax_result, mapLanes, computedLanes] at hc hcb ⊢
      simp only [hca, hc, if_true, hva c hc, fv_congr _ _ c (hvb c (by omega))]
    case UMin =>
      simp only [ExtInstImpl.call, glsl.UMin_result, mapLanes, computedLanes,
        ShaderVariable.uv] at hc hcb ⊢
      simp only [hca, hc, if_true, hva c hc, hvb c (by omega)]
    case UMax =>
      simp only [ExtInstImpl.call, glsl.UMax_result, mapLanes, computedLanes,
        ShaderVariable.uv] at hc hcb ⊢
      simp only [hca, hc, if_true, hva c hc, hvb c (by omega)]
    case SMin =>
      simp only [ExtInstImpl.call, glsl.SMin_result, mapLanes, computedLanes,
        ShaderVariable.iv] at hc hcb ⊢
      simp only [hca, hc, if_true, hva c hc, hvb c (by omega)]
    case SMax =>
      simp only [ExtInstImpl.call, glsl.SMax_result, mapLanes, computedLanes,
        ShaderVariable.iv] at hc hcb ⊢
      simp only [hca, hc, if_true, hva c hc, hvb c (by omega)]
    all_goals rfl
  · obtain ⟨_, _, _, hca, hva⟩ := hsame a (by simp)
    obtain ⟨_, _, _, _, hvb⟩ := hsame b (by simp)
    obtain ⟨_, _, _, _, hvd⟩ := hsame d (by simp)
    have hcb := hcols b (by simp)
    have hcd := hcols d (by simp)
    simp only [List.getD_cons_zero] at hcb hcd
    cases f
    case FClamp =>
      simp only [ExtInstImpl.call, glsl.FClamp_result, mapLanes, computedLanes] at hc hcb hcd ⊢
      simp only [hca, hc, if_true, hva c hc, fv_congr _ _ c (hvb c (by omega)),
        fv_congr _ _ c (hvd c (by omega))]
    case FMix =>
      simp only [ExtInstImpl.call, glsl.FMix_result, mapLanes, computedLanes] at hc hcb hcd ⊢
      simp only [hca, hc, if_true, hva c hc, fv_congr _ _ c (hvb c (by omega)),
        fv_congr _ _ c (hvd c (by omega))]
    case UClamp =>
      simp only [ExtInstImpl.call, glsl.UClamp_result, mapLanes, computedLanes,
        ShaderVariable.uv] at hc hcb hcd ⊢
      simp only [hca, hc, if_true, hva c hc, hvb c (by omega), hvd c (by omega)]
    case SClamp =>
      simp only [ExtInstImpl.call, glsl.SClamp_result, mapLanes, computedLanes,
        ShaderVariable.iv] at hc hcb hcd ⊢
      simp only [hca, hc, if_true, hva c hc, hvb c (by omega), hvd c (by omega)]
    all_goals rfl
  · cases f <;> rfl

/-- C15 witness: changing the lane 3 of both 3-vectors leaves the three
components of their cross product unchanged. -/
theorem C15_no_read_past_columns_witness :
    (stateCross2.GetSrc 0).value 3 ≠ (stateCross.GetSrc 0).value 3 ∧
    (stateCross2.GetSrc 1).value 3 ≠ (stateCross.GetSrc 1).value 3 ∧
    (∀ c, c < 3 →
      (glsl.Cross stateCross2 [0, 1]).result.value c
        = (glsl.Cross stateCross [0, 1]).result.value c) :=
  ⟨by decide, by decide, fun c hc =>
    C15_no_read_past_columns (fun a _ => a) .Cross stateCross stateCross2 [0, 1]
      (by
        intro id hid
        simp only [List.mem_cons, List.mem_singleton, List.not_mem_nil, or_false] at hid
        rcases hid with rfl | rfl <;> refine ⟨rfl, rfl, rfl, rfl, ?_⟩ <;> intro i hi <;>
          (have hi3 : i < 3 := hi
           interval_cases i <;> rfl))
      (by
        intro id hid
        simp only [List.mem_cons, List.mem_singleton, List.not_mem_nil, or_false] at hid
        rcases hid with rfl | rfl <;> decide)
      c hc⟩

/-- C15 counterexample: `FMax` of the 2-vector `x = (1, 1)` and the scalar `y = 2`
(one column).  Changing lane 1 of `y`, an index at or beyond the columns of `y`,
from `0` to `5.0f` changes component 1 of the result from `1.0f` to `5.0f`. -/
theorem C15_counterexample :
    (stateShort.GetSrc 1).columns = 1 ∧ (stateShort2.GetSrc 1).columns = 1 ∧
    (stateShort2.GetSrc 1).value 0 = (stateShort.GetSrc 1).value 0 ∧
    (stateShort2.GetSrc 0).value 0 = (stateShort.GetSrc 0).value 0 ∧
    (stateShort2.GetSrc 0).value 1 = (stateShort.GetSrc 0).value 1 ∧
    (glsl.FMax stateShort [0, 1]).result.columns = 2 ∧
    (glsl.FMax stateShort [0, 1]).result.fv 1 = Float32.ofBits 0x3F800000 ∧
    (glsl.FMax stateShort2 [0, 1]).result.fv 1 = Float32.ofBits 0x40A00000 := by
  decide

/-- C16 (as the code has it): when the squared length of `x`, accumulated in
binary32, is finite and non-zero, the factor `invLength x` is a positive, finite,
non-zero number and every component `c < x.columns` of `Normalize(x)` is
`x_c * invLength x` rounded to binary32: it is not a NaN, it has the sign bit of
`x_c`, and it is a zero when `x_c` is a zero. -/
theorem C16_normalize_direction (state : ThreadState) (p : Id) (c : Nat)
    (hc : c < (state.GetSrc p).columns)
    (hfin : (sqrLength (state.GetSrc p)).isFinite = true)
    (hnz : (sqrLength (state.GetSrc p)).mag ≠ 0) :
    ((invLength (state.GetSrc p)).isFinite = true ∧
      (invLength (state.GetSrc p)).sign = false ∧ (invLength (state.GetSrc p)).mag ≠ 0) ∧
    (glsl.Normalize state [p]).result.fv c
      = Float32.mul ((state.GetSrc p).fv c) (invLength (state.GetSrc p)) ∧
    ((glsl.Normalize state [p]).result.fv c).isNaN = false ∧
    ((glsl.Normalize state [p]).result.fv c).sign = ((state.GetSrc p).fv c).sign ∧
    (((state.GetSrc p).fv c).mag = 0 → ((glsl.Normalize state [p]).result.fv c).mag = 0) := by
  have hform : (glsl.Normalize state [p]).result.fv c
      = Float32.mul ((state.GetSrc p).fv c) (invLength (state.GetSrc p)) := by
    rw [glsl.Normalize_result]
    simp only [mapLanes, ShaderVariable.fv, hc, if_true, invLength, sqrLength]
  obtain ⟨hifin, hipos, hinz⟩ := invLength_range _ hfin hnz
  have hx := isNaN_false_of_sqrLength _ c hc hfin
  rw [hform]
  obtain ⟨h1, h2⟩ := Float32.sign_mul_pos _ _ hx hifin hipos hinz
  exact ⟨⟨hifin, hipos, hinz⟩, rfl, h1, h2,
    fun hz => (Float32.mag_mul_zero_left _ _ hifin hz).1⟩

/-- C16 witness: `Normalize (-3, 0) = (-1, 0)`: the squared length is `9`, the
factor is `1/3`, the negative component stays negative and the zero stays zero. -/
theorem C16_normalize_direction_witness :
    sqrLength (stateSigned.GetSrc 0) = Float32.ofBits 0x41100000 ∧
    (glsl.Normalize stateSigned [0]).result.fv 0 = Float32.ofBits 0xBF800000 ∧
    ((glsl.Normalize stateSigned [0]).result.fv 0).sign = ((stateSigned.GetSrc 0).fv 0).sign ∧
    ((glsl.Normalize stateSigned [0]).result.fv 1).mag = 0 :=
  ⟨by decide, by decide,
    (C16_normalize_direction stateSigned 0 0 (by decide) (by decide) (by decide)).2.2.2.1,
    (C16_normalize_direction stateSigned 0 1 (by decide) (by decide) (by decide)).2.2.2.2
      (by decide)⟩

/-- C16 counterexample: for the finite non-zero vector `x = (2^100, 1)` the squared
length overflows to `+inf`, the factor is `1 / inf = 0`, and `Normalize(x)` is
`(0, 0)`: the positive components became zeros, and the ratio of the components,
`2^100` in `x`, is `0 / 0 = NaN` in the result. -/
theorem C16_counterexample :
    ((stateOverflow.GetSrc 0).fv 0).isFinite = true ∧
    ((stateOverflow.GetSrc 0).fv 1).isFinite = true ∧
    Float32.lt Float32.zero ((stateOverflow.GetSrc 0).fv 0) = true ∧
    Float32.lt Float32.zero ((stateOverflow.GetSrc 0).fv 1) = true ∧
    invLength (stateOverflow.GetSrc 0) = Float32.zero ∧
    (glsl.Normalize stateOverflow [0]).result.fv 0 = Float32.zero ∧
    (glsl.Normalize stateOverflow [0]).result.fv 1 = Float32.zero ∧
    Float32.lt Float32.zero ((glsl.Normalize stateOverflow [0]).result.fv 0) = false ∧
    Float32.div ((stateOverflow.GetSrc 0).fv 0) ((stateOverflow.GetSrc 0).fv 1)
      = Float32.ofBits 0x71800000 ∧
    (Float32.div ((glsl.Normalize stateOverflow [0]).result.fv 0)
      ((glsl.Normalize stateOverflow [0]).result.fv 1)).isNaN = true := by
  decide

/-- C17: each instruction function is a function of the values `GetSrc` returns
for the ids of its operand list: on two lane states that agree on those ids it
returns the same result, diagnostics and reads, and every id it passes to
`GetSrc` is in its operand list. -/
theorem C17_deterministic (powf : Float32 → Float32 → Float32) (f : ExtInstImpl)
    (state state2 : ThreadState) (params : List Id)
    (hagree : ∀ id ∈ params, state.GetSrc id = state2.GetSrc id) :
    f.call powf state params = f.call powf state2 params ∧
    (∀ id ∈ (f.call powf state params).reads, id ∈ params) := by
  rcases params with _ | ⟨a, _ | ⟨b, _ | ⟨c, _ | ⟨d, rest⟩⟩⟩⟩ <;>
    cases f <;>
    simp only [ExtInstImpl.call, glsl.FAbs, glsl.Floor, glsl.Pow,
      glsl.FMin, glsl.UMin, glsl.SMin, glsl.FMax, glsl.UMax, glsl.SMax, glsl.FClamp,
      glsl.UClamp, glsl.SClamp, glsl.FMix, glsl.Cross, glsl.Normalize, checkParamsFail,
      List.length_cons, List.length_nil, List.getD_cons_zero, List.getD_cons_succ] <;>
    simp_all

/-- C17 witness: `stateUMax` and `stateUMaxMore` differ at id 2 and agree on the
ids 0 and 1; `UMax` on `[0, 1]` is the same in both and reads exactly `[0, 1]`. -/
theorem C17_deterministic_witness :
    stateUMax.GetSrc 2 ≠ stateUMaxMore.GetSrc 2 ∧
    glsl.UMax stateUMax [0, 1] = glsl.UMax stateUMaxMore [0, 1] ∧
    (glsl.UMax stateUMax [0, 1]).reads = [0, 1] :=
  ⟨fun h => absurd (congrArg ShaderVariable.columns h) (by decide),
    (C17_deterministic (fun a _ => a) .UMax stateUMax stateUMaxMore [0, 1]
      (by
        intro id hid
        simp only [List.mem_cons, List.mem_singleton, List.not_mem_nil, or_false] at hid
        rcases hid with rfl | rfl <;> rfl)).1,
    rfl⟩

/-- C18: Min and Max select: in each of the three views the result lane of
`FMax`, `UMax`, `SMax`, `FMin`, `UMin`, `SMin` at `c < x.columns` is bit-identical
to the lane of the first operand or to the lane of the second, and it is the
lane of the first operand whenever the strict comparison (`x_c < y_c` for Max,
`y_c < x_c` for Min) is false; for the float view that is the case when the two
values are equal (`+0` and `-0` included) or either side is a NaN. -/
theorem C18_minmax_select (state : ThreadState) (p q : Id) (c : Nat)
    (hc : c < (state.GetSrc p).columns) :
    (((glsl.FMax state [p, q]).result.value c = (state.GetSrc p).value c ∨
        (glsl.FMax state [p, q]).result.value c = (state.GetSrc q).value c) ∧
      (¬ ((state.GetSrc p).fv c < (state.GetSrc q).fv c) →
        (glsl.FMax state [p, q]).result.value c = (state.GetSrc p).value c)) ∧
    (((glsl.UMax state [p, q]).result.value c = (state.GetSrc p).value c ∨
        (glsl.UMax state [p, q]).result.value c = (state.GetSrc q).value c) ∧
      (¬ ((state.GetSrc p).uv c < (state.GetSrc q).uv c) →
        (glsl.UMax state [p, q]).result.value c = (state.GetSrc p).value c)) ∧
    (((glsl.SMax state [p, q]).result.value c = (state.GetSrc p).value c ∨
        (glsl.SMax state [p, q]).result.value c = (state.GetSrc q).value c) ∧
      (¬ ((state.GetSrc p).iv c < (state.GetSrc q).iv c) →
        (glsl.SMax state [p, q]).result.value c = (state.GetSrc p).value c)) ∧
    (((glsl.FMin state [p, q]).result.value c = (state.GetSrc p).value c ∨
        (glsl.FMin state [p, q]).result.value c = (state.GetSrc q).value c) ∧
      (¬ ((state.GetSrc q).fv c < (state.GetSrc p).fv c) →
        (glsl.FMin state [p, q]).result.value c = (state.GetSrc p).value c)) ∧
    (((glsl.UMin state [p, q]).result.value c = (state.GetSrc p).value c ∨
        (glsl.UMin state [p, q]).result.value c = (state.GetSrc q).value c) ∧
      (¬ ((state.GetSrc q).uv c < (state.GetSrc p).uv c) →
        (glsl.UMin state [p, q]).result.value c = (state.GetSrc p).value c)) ∧
    (((glsl.SMin state [p, q]).result.value c = (state.GetSrc p).value c ∨
        (glsl.SMin state [p, q]).result.value c = (state.GetSrc q).value c) ∧
      (¬ ((state.GetSrc q).iv c < (state.GetSrc p).iv c) →
        (glsl.SMin state [p, q]).result.value c = (state.GetSrc p).value c)) ∧
    ((((state.GetSrc p).fv c).isNaN = true ∨ ((state.GetSrc q).fv c).isNaN = true ∨
        Float32.feq ((state.GetSrc p).fv c) ((state.GetSrc q).fv c) = true) →
      (glsl.FMax state [p, q]).result.value c = (state.GetSrc p).value c ∧
      (glsl.FMin state [p, q]).result.value c = (state.GetSrc p).value c) := by
  have hcmp := Float32.not_lt_of_nan_or_feq ((state.GetSrc p).fv c) ((state.GetSrc q).fv c)
  rw [glsl.FMax_result, glsl.UMax_result, glsl.SMax_result, glsl.FMin_result,
    glsl.UMin_result, glsl.SMin_result]
  simp only [mapLanes, ShaderVariable.fv, ShaderVariable.uv, ShaderVariable.iv, hc, if_true,
    glsl.GLSLMax, glsl.GLSLMin, apply_ite Word.ofInt32, int32_roundtrip] at hcmp ⊢
  refine ⟨⟨?_, ?_⟩, ⟨?_, ?_⟩, ⟨?_, ?_⟩, ⟨?_, ?_⟩, ⟨?_, ?_⟩, ⟨?_, ?_⟩, ?_⟩
  case refine_13 =>
    intro h
    obtain ⟨h1, h2⟩ := hcmp h
    simp only [h1, h2, if_false]
    exact ⟨trivial, trivial⟩
  all_goals first
    | (intro h; simp only [h, if_false])
    | (split_ifs
       · exact Or.inr rfl
       · exact Or.inl rfl)

/-- C18 witness: `FMax(+0, -0)` is the `+0` of the first operand and
`FMax(NaN, 1.0f)` is the NaN of the first operand, bit for bit. -/
theorem C18_minmax_select_witness :
    (glsl.FMax stateZeros [0, 1]).result.value 0 = (stateZeros.GetSrc 0).value 0 ∧
    (glsl.FMax stateNaN [0, 1]).result.value 0 = (stateNaN.GetSrc 0).value 0 ∧
    (glsl.FMin stateNaN [0, 1]).result.value 0 = (stateNaN.GetSrc 0).value 0 :=
  ⟨(C18_minmax_select stateZeros 0 1 0 (by decide)).1.2 (by decide),
    ((C18_minmax_select stateNaN 0 1 0 (by decide)).2.2.2.2.2.2 (Or.inl (by decide))).1,
    ((C18_minmax_select stateNaN 0 1 0 (by decide)).2.2.2.2.2.2 (Or.inl (by decide))).2⟩

/-- C19: frame.  An instruction called with its declared number of operands
returns the first operand's value except for the lanes it computes: name, type,
rows and columns are those of the first operand, and every lane at an index at
or beyond the first operand's columns (for `Cross`: at or beyond 3) holds the
first operand's bit pattern, whatever the columns of the other operands. -/
theorem C19_frame (powf : Float32 → Float32 → Float32) (f : ExtInstImpl)
    (state : ThreadState) (params : List Id) (harity : params.length = f.arity.2) :
    (f.call powf state params).result.name = (state.GetSrc (params.getD 0 0)).name ∧
    (f.call powf state params).result.type = (state.GetSrc (params.getD 0 0)).type ∧
    (f.call powf state params).result.rows = (state.GetSrc (params.getD 0 0)).rows ∧
    (f.call powf state params).result.columns = (state.GetSrc (params.getD 0 0)).columns ∧
    (∀ i, computedLanes f (state.GetSrc (params.getD 0 0)) ≤ i →
      (f.call powf state params).result.value i
        = (state.GetSrc (params.getD 0 0)).value i) := by
  rcases params with _ | ⟨a, _ | ⟨b, _ | ⟨c, _ | ⟨d, rest⟩⟩⟩⟩ <;>
    cases f <;>
    simp only [ExtInstImpl.arity, List.length_cons, List.length_nil] at harity <;>
    first
      | omega
      | (simp only [ExtInstImpl.call, computedLanes, List.getD_cons_zero, glsl.FAbs_result,
          glsl.Floor_result, glsl.Pow_result, glsl.FMin_result, glsl.UMin_result,
          glsl.SMin_result, glsl.FMax_result, glsl.UMax_result, glsl.SMax_result,
          glsl.FClamp_result, glsl.UClamp_result, glsl.SClamp_result, glsl.FMix_result,
          glsl.Normalize_result, mapLanes]
         refine ⟨trivial, trivial, trivial, trivial, ?_⟩
         intro i hi
         simp only [Nat.not_lt.mpr hi, if_false])
      | (refine ⟨rfl, rfl, rfl, rfl, ?_⟩
         intro i hi
         simp only [computedLanes] at hi
         have h0 : i ≠ 0 := by omega
         have h1 : i ≠ 1 := by omega
         have h2 : i ≠ 2 := by omega
         simp [ExtInstImpl.call, glsl.Cross, ShaderVariable.setFv, Function.update_noteq,
           h0, h1, h2])

/-- C19 witness: `FMax` on a 2-vector and a scalar whose lane 1 holds `5.0f`
keeps the two columns of the first operand and its lanes 2 and 3. -/
theorem C19_frame_witness :
    (glsl.FMax stateShort2 [0, 1]).result.columns = 2 ∧
    (glsl.FMax stateShort2 [0, 1]).result.value 2 = (stateShort2.GetSrc 0).value 2 ∧
    (glsl.Cross stateCross2 [0, 1]).result.value 3 = Word.ofNat 0x7FC00000 :=
  ⟨((C19_frame (fun a _ => a) .FMax stateShort2 [0, 1] rfl).2.2.2.1).trans (by decide),
    (C19_frame (fun a _ => a) .FMax stateShort2 [0, 1] rfl).2.2.2.2 2 (by decide),
    ((C19_frame (fun a _ => a) .Cross stateCross2 [0, 1] rfl).2.2.2.2 3 (by decide)).trans
      (by decide)⟩

/-- C20: integer clamping is idempotent for all bounds: clamping the result of
`UClamp` (resp. `SClamp`) again with the same `minVal` and `maxVal` returns the
same lanes; and when `minVal_c > maxVal_c` the result component is `maxVal_c`
for every `x_c`. -/
theorem C20_clamp_idempotent (state state2 : ThreadState) (p q r p2 q2 r2 : Id) (c : Nat)
    (hq : state2.GetSrc q2 = state.GetSrc q) (hr : state2.GetSrc r2 = state.GetSrc r) :
    (state2.GetSrc p2 = (glsl.UClamp state [p, q, r]).result →
      (glsl.UClamp state2 [p2, q2, r2]).result.uv c
        = (glsl.UClamp state [p, q, r]).result.uv c) ∧
    (state2.GetSrc p2 = (glsl.SClamp state [p, q, r]).result →
      (glsl.SClamp state2 [p2, q2, r2]).result.iv c
        = (glsl.SClamp state [p, q, r]).result.iv c) ∧
    (c < (state.GetSrc p).columns → (state.GetSrc r).uv c < (state.GetSrc q).uv c →
      (glsl.UClamp state [p, q, r]).result.uv c = (state.GetSrc r).uv c) ∧
    (c < (state.GetSrc p).columns → (state.GetSrc r).iv c < (state.GetSrc q).iv c →
      (glsl.SClamp state [p, q, r]).result.iv c = (state.GetSrc r).iv c) := by
  refine ⟨?_, ?_, ?_, ?_⟩
  · intro hp
    rw [glsl.UClamp_result state2, hp, hq, hr, glsl.UClamp_result]
    simp only [mapLanes, ShaderVariable.uv, glsl.GLSLMin, glsl.GLSLMax, Fin.lt_def]
    split_ifs <;> rfl
  · intro hp
    rw [glsl.SClamp_result state2, hp, hq, hr, glsl.SClamp_result]
    simp only [mapLanes, ShaderVariable.iv, glsl.GLSLMin, glsl.GLSLMax,
      apply_ite Word.ofInt32, apply_ite Word.toInt32, int32_roundtrip]
    split_ifs <;> rfl
  · intro hc hlt
    rw [glsl.UClamp_result]
    simp only [mapLanes, ShaderVariable.uv, hc, if_true, glsl.GLSLMin, glsl.GLSLMax,
      Fin.lt_def] at hlt ⊢
    split_ifs <;> first | rfl | omega
  · intro hc hlt
    rw [glsl.SClamp_result]
    simp only [mapLanes, ShaderVariable.iv, hc, if_true, glsl.sclamp_lane] at hlt ⊢
    simp only [glsl.GLSLMin, glsl.GLSLMax]
    split_ifs <;> first | rfl | omega

/-- C20 witness: clamping `(7, 0xFFFFFFF0)` to `[10, 20]`, `[3, 0x80000000]` and
then clamping the result again leaves `(10, 0x80000000)`; with the inverted
bounds `minVal = 20 > maxVal = 10` the clamp of `7` is `10`. -/
theorem C20_clamp_idempotent_witness :
    ((glsl.UClamp stateClampAgain [0, 1, 2]).result.uv 0).val = 10 ∧
    ((glsl.UClamp stateClampAgain [0, 1, 2]).result.uv 1).val = 0x80000000 ∧
    ((glsl.UClamp stateClampInverted [0, 1, 2]).result.uv 0).val = 10 :=
  ⟨(congrArg Fin.val ((C20_clamp_idempotent stateClamp stateClampAgain 0 1 2 0 1 2 0
      rfl rfl).1 rfl)).trans (by decide),
    (congrArg Fin.val ((C20_clamp_idempotent stateClamp stateClampAgain 0 1 2 0 1 2 1
      rfl rfl).1 rfl)).trans (by decide),
    (congrArg Fin.val ((C20_clamp_idempotent stateClampInverted stateClampInverted
      0 1 2 0 1 2 0 rfl rfl).2.2.1 (by decide) (by decide))).trans (by decide)⟩

end rdcspv
